import Mathlib

/-!
# fizzbuzz-golang: a shallow embedding and its verified properties

The development follows the repository's packages:

* `strconv`, `slog`     the few library routines the code relies on (decimal text, log records);
* `repository`          the `FizzBuzzer` interface (`pkg/repository/repository.go`);
* `app`                 the producer/consumer pipeline `FizzBuzz.Run` (`internal/app/app.go`);
* `server`              the simulated division service (`.../httpapi/server/server.go`);
* `httpapi`             the remote classifier `API` (`.../httpapi/httpapi.go`).

Go's `int` is modelled by `Int`.  The 64-bit range is explicit where the code can observe it:
`strconv.Atoi` rejects out-of-range text, and `strconv.isInt` marks the values a Go `int` can
take.  The remainder `a % b` and the halving `upperLimit / 2` cannot overflow.  The producer's
`i++` leaves the range only for `upperLimit = 2^63 - 1`, whose channel of `2^62` slots cannot be
allocated; like all memory limits this is outside the model.
-/

set_option autoImplicit false

/-! ## Decimal text (`strconv`, and the `%d` verb of `fmt`) -/

namespace strconv

/-- The character of a decimal digit `d < 10`. -/
def digitChar (d : Nat) : Char := Char.ofNat (48 + d)

/-- Most significant digit first; `fuel` bounds the number of digits. -/
def natDigits : Nat → Nat → List Char → List Char
  | 0, _, acc => acc
  | fuel + 1, n, acc =>
    if n < 10 then digitChar n :: acc
    else natDigits fuel (n / 10) (digitChar (n % 10) :: acc)

/-- Decimal digits of a natural number. -/
def FormatNat (n : Nat) : List Char := natDigits (n + 1) n []

/-- Decimal text of an integer, as `strconv.Itoa` and `fmt.Sprintf("%d", i)` print it. -/
def Itoa (i : Int) : String :=
  match i with
  | Int.ofNat n => String.mk (FormatNat n)
  | Int.negSucc n => String.mk ('-' :: FormatNat (n + 1))

/-- A list that starts with a decimal digit. -/
def startsWithDigit (l : List Char) : Prop :=
  ∃ d rest, d < 10 ∧ l = digitChar d :: rest

/-- Value of a decimal digit character, if it is one. -/
def digitVal (c : Char) : Option Nat :=
  if 48 ≤ c.toNat ∧ c.toNat ≤ 57 then some (c.toNat - 48) else none

/-- Reads a run of decimal digits onto the accumulator; `none` on any other character. -/
def parseDigits : List Char → Nat → Option Nat
  | [], acc => some acc
  | c :: cs, acc =>
    match digitVal c with
    | some d => parseDigits cs (acc * 10 + d)
    | none => none

/-- One or more decimal digits (base 10, no underscores). -/
def ParseUint (cs : List Char) : Option Nat :=
  match cs with
  | [] => none
  | _ :: _ => parseDigits cs 0

/-- Smallest and largest value of Go's 64-bit `int`. -/
def minInt : Int := -(2 ^ 63)

/-- Largest value of Go's 64-bit `int`. -/
def maxInt : Int := 2 ^ 63 - 1

/-- The values of Go's `int`. -/
def isInt (n : Int) : Prop := minInt ≤ n ∧ n ≤ maxInt

instance (n : Int) : Decidable (isInt n) := by unfold isInt; infer_instance

/-- Model of `strconv.Atoi`: an optional sign, then one or more decimal digits, and the value must
fit Go's `int`; `none` stands for the returned error (syntax or range). -/
def Atoi (s : String) : Option Int :=
  match s.data with
  | [] => none
  | '-' :: cs =>
    match ParseUint cs with
    | some n => if (n : Int) ≤ 2 ^ 63 then some (-(n : Int)) else none
    | none => none
  | '+' :: cs =>
    match ParseUint cs with
    | some n => if (n : Int) ≤ maxInt then some (n : Int) else none
    | none => none
  | cs =>
    match ParseUint cs with
    | some n => if (n : Int) ≤ maxInt then some (n : Int) else none
    | none => none

end strconv

/-! ## Structured log records (`log/slog`) -/

namespace slog

/-- Severity of a record. -/
inductive Level where
  | Info
  | Error
  deriving DecidableEq, Repr

/-- Attribute values used by this program: `slog.Int` and `slog.String`. -/
inductive Value where
  | int (v : Int)
  | string (v : String)
  deriving DecidableEq, Repr

/-- A key/value attribute of a record. -/
structure Attr where
  Key : String
  Value : Value
  deriving DecidableEq, Repr

/-- One emitted log line. -/
structure Record where
  Level : Level
  Message : String
  Attrs : List Attr
  deriving DecidableEq, Repr

/-- Attribute constructor `slog.Int(key, v)`. -/
def IntAttr (key : String) (v : Int) : Attr := ⟨key, Value.int v⟩

/-- Attribute constructor `slog.String(key, v)`. -/
def StringAttr (key : String) (v : String) : Attr := ⟨key, Value.string v⟩

/-- The record written by `slog.Info(msg, attrs...)`. -/
def Info (msg : String) (attrs : List Attr) : Record := ⟨Level.Info, msg, attrs⟩

/-- The record written by `slog.Error(msg, attrs...)`. -/
def Error (msg : String) (attrs : List Attr) : Record := ⟨Level.Error, msg, attrs⟩

end slog

/-! ## The classifier interface (`pkg/repository`) -/

namespace repository

/-- The interface `FizzBuzzer`: two predicates on an `int`. -/
structure FizzBuzzer where
  Fizz : Int → Bool
  Buzz : Int → Bool

end repository

/-! ## The pipeline (`internal/app`) -/

namespace app

/-- The struct `FizzBuzz`. -/
structure FizzBuzz where
  upperLimit : Int
  repo : repository.FizzBuzzer

/-- The struct `result` carried by the channel. -/
structure result where
  Number : Int
  Fizz : Bool
  Buzz : Bool
  deriving DecidableEq, Repr

/-- Constructor `New`. -/
def New (upperLimit : Int) (repo : repository.FizzBuzzer) : FizzBuzz :=
  { upperLimit := upperLimit, repo := repo }

/-- The test double `mockFizzBuzzer` of `app_test.go`; `%` is Go's truncated remainder. -/
def mockFizzBuzzer : repository.FizzBuzzer :=
  { Fizz := fun n => Int.tmod n 3 == 0
    Buzz := fun n => Int.tmod n 5 == 0 }

/-- The value the producer sends for `i` (lines 42-46). -/
def mkResult (fb : FizzBuzz) (i : Int) : result :=
  { Number := i, Fizz := fb.repo.Fizz i, Buzz := fb.repo.Buzz i }

/-- The consumer's `switch` (lines 60-72): the one record logged for a received value. -/
def logLine (r : result) : slog.Record :=
  if r.Fizz && r.Buzz then slog.Info "FizzBuzz" [slog.IntAttr "number" r.Number]
  else if r.Fizz then slog.Info "Fizz" [slog.IntAttr "number" r.Number]
  else if r.Buzz then slog.Info "Buzz" [slog.IntAttr "number" r.Number]
  else slog.Info (strconv.Itoa r.Number) []

/-- A Go channel of `result`: capacity, buffered values (oldest first), closed flag. -/
structure Chan where
  cap : Nat
  buf : List result
  closed : Bool
  deriving DecidableEq, Repr

/-- Model of `make(chan result, size)`: a negative size panics (`none`).  Memory is
unbounded here: the runtime's refusal of a channel too large to allocate is not modelled. -/
def make (size : Int) : Option Chan :=
  if size < 0 then none else some { cap := size.toNat, buf := [], closed := false }

/-- State of a running `Run`: the channel `chProcessor`, the producer's loop variable `i`,
whether the consumer goroutine has returned (`wg.Done`), and the log written so far.
The producer goroutine has returned exactly when the channel is closed (`defer close`). -/
structure RunState where
  ch : Chan
  i : Int
  consumerDone : Bool
  out : List slog.Record
  deriving DecidableEq, Repr

/-- The steps the producer goroutine (lines 39-48) can take in a state.
While `i <= upperLimit` it sends `mkResult i`: into the buffer when there is room, or directly
to the consumer when the consumer is waiting at its receive on an empty channel (the only way
to send on a channel of capacity 0); otherwise the send blocks.  After the loop it closes
the channel and returns. -/
def producerSteps (fb : FizzBuzz) (s : RunState) : List RunState :=
  if s.ch.closed then []
  else if s.i ≤ fb.upperLimit then
    (if s.ch.buf.length < s.ch.cap then
      [{ s with ch := { s.ch with buf := s.ch.buf ++ [mkResult fb s.i] }, i := s.i + 1 }]
     else []) ++
    (if s.ch.buf.isEmpty && !s.consumerDone then
      [{ s with i := s.i + 1, out := s.out ++ [logLine (mkResult fb s.i)] }]
     else [])
  else [{ s with ch := { s.ch with closed := true } }]

/-- The steps the consumer goroutine (lines 52-74) can take in a state: receive the oldest
buffered value and log it; on an empty closed channel return; on an empty open channel block
(a direct hand-over from the producer is a producer step). -/
def consumerSteps (s : RunState) : List RunState :=
  if s.consumerDone then []
  else
    match s.ch.buf with
    | r :: rest => [{ s with ch := { s.ch with buf := rest }, out := s.out ++ [logLine r] }]
    | [] => if s.ch.closed then [{ s with consumerDone := true }] else []

/-- One step of either goroutine. -/
def Step (fb : FizzBuzz) (s t : RunState) : Prop :=
  t ∈ consumerSteps s ++ producerSteps fb s

instance (fb : FizzBuzz) (s t : RunState) : Decidable (Step fb s t) := by
  unfold Step; infer_instance

/-- States reachable from `s` by any interleaving of the two goroutines. -/
inductive Reachable (fb : FizzBuzz) (s : RunState) : RunState → Prop where
  | refl : Reachable fb s s
  | step {t u : RunState} : Reachable fb s t → Step fb t u → Reachable fb s u

/-- The state after `make`, before either goroutine has run. -/
def initState (ch : Chan) : RunState :=
  { ch := ch, i := 1, consumerDone := false, out := [] }

/-- A fixed scheduler: the consumer runs whenever it can, otherwise the producer does. -/
def schedule (fb : FizzBuzz) (s : RunState) : Option RunState :=
  (consumerSteps s ++ producerSteps fb s).head?

/-- Runs the scheduler for at most `fuel` steps, stopping early when no step is possible. -/
def runFuel (fb : FizzBuzz) : Nat → RunState → RunState
  | 0, s => s
  | fuel + 1, s =>
    match schedule fb s with
    | some t => runFuel fb fuel t
    | none => s

/-- How a call of `Run` ends. -/
inductive Outcome where
  | returned (out : List slog.Record)
  | panicked
  | blocked (out : List slog.Record)
  deriving DecidableEq, Repr

/-- The state `Run` starts its two goroutines in: the channel made at line 36 with capacity
`upperLimit/2`, nothing sent, nothing logged; `none` when `make` panics. -/
def startState (fb : FizzBuzz) : Option RunState :=
  match make (Int.tdiv fb.upperLimit 2) with
  | none => none
  | some ch => some (initState ch)

/-- The state in which `Run`, under the fixed scheduler, stops.  Every step consumes one unit
of the measure `2 * (upperLimit + 1 - i) + len(buf) + [open] + [consumer running]`, which
starts at `2 * upperLimit + 2`, so that much fuel is enough. -/
def finalState (fb : FizzBuzz) : Option RunState :=
  match startState fb with
  | none => none
  | some s0 => some (runFuel fb (2 * fb.upperLimit.toNat + 2) s0)

/-- Model of `FizzBuzz.Run` under the fixed scheduler: it starts in `startState`, runs to
`finalState`, and `wg.Wait()` returns once the consumer has returned; the outcome carries
everything logged. -/
def Run (fb : FizzBuzz) : Outcome :=
  match finalState fb with
  | none => Outcome.panicked
  | some s => if s.consumerDone then Outcome.returned s.out else Outcome.blocked s.out

/-- The messages of a list of records. -/
def messages (out : List slog.Record) : List String := out.map (fun r => r.Message)

/-- The message the specification asks for the integer `i`: "FizzBuzz" when both predicates
hold, "Fizz" when only the first does, "Buzz" when only the second does, else the decimal
text of `i`. -/
def expectedMessage (repo : repository.FizzBuzzer) (i : Int) : String :=
  if repo.Fizz i = true ∧ repo.Buzz i = true then "FizzBuzz"
  else if repo.Fizz i = true ∧ repo.Buzz i = false then "Fizz"
  else if repo.Buzz i = true ∧ repo.Fizz i = false then "Buzz"
  else strconv.Itoa i

/-- The classic FizzBuzz word of `i`, stated with divisibility. -/
def classicMessage (i : Int) : String :=
  if (15 : Int) ∣ i then "FizzBuzz"
  else if (3 : Int) ∣ i ∧ ¬ (5 : Int) ∣ i then "Fizz"
  else if (5 : Int) ∣ i ∧ ¬ (3 : Int) ∣ i then "Buzz"
  else strconv.Itoa i

/-- The integers `1..n` in increasing order, as Go `int`s. -/
def upTo (n : Nat) : List Int := (List.range' 1 n).map (fun (j : Nat) => (j : Int))

/-- The pipeline invariant, with `k` values logged and `m` values buffered: the log holds the
lines of `1..k`, the buffer the results of `k+1..k+m`, the producer is at `k+m+1`. -/
def InvAt (fb : FizzBuzz) (s : RunState) (k m : Nat) : Prop :=
  s.out = (List.range' 1 k).map (fun (j : Nat) => logLine (mkResult fb (j : Int)))
  ∧ s.ch.buf = (List.range' (k + 1) m).map (fun (j : Nat) => mkResult fb (j : Int))
  ∧ s.i = ((k + m + 1 : Nat) : Int)
  ∧ ((k + m : Nat) : Int) ≤ fb.upperLimit
  ∧ s.ch.cap = (Int.tdiv fb.upperLimit 2).toNat
  ∧ m ≤ s.ch.cap
  ∧ (s.ch.closed = true → ((k + m : Nat) : Int) = fb.upperLimit)
  ∧ (s.consumerDone = true → s.ch.closed = true ∧ m = 0)

/-- The pipeline invariant. -/
def Inv (fb : FizzBuzz) (s : RunState) : Prop := ∃ k m, InvAt fb s k m

/-- The termination measure of the pipeline. -/
def measure (fb : FizzBuzz) (s : RunState) : Nat :=
  2 * (fb.upperLimit + 1 - s.i).toNat + s.ch.buf.length
    + (if s.ch.closed then 0 else 1) + (if s.consumerDone then 0 else 1)

/-- The line the consumer logs for the integer `i`. -/
def lineOf (fb : FizzBuzz) (i : Int) : slog.Record := logLine (mkResult fb i)

/-- A record carries the attribute `number = i`. -/
def carriesNumber (i : Int) (r : slog.Record) : Prop := slog.IntAttr "number" i ∈ r.Attrs

instance (i : Int) (r : slog.Record) : Decidable (carriesNumber i r) := by
  unfold carriesNumber; infer_instance

/-- The pipeline is over: the producer has closed the channel, the consumer has drained it
and returned, so `wg.Wait()` returns. -/
def Finished (s : RunState) : Prop :=
  s.ch.closed = true ∧ s.ch.buf = [] ∧ s.consumerDone = true

end app


/-! ## JSON text (`encoding/json`), as far as the two flat records of this program need it -/

namespace json

/-- Four-digit lower-case hexadecimal text of a code unit, for `\uXXXX` escapes. -/
def hex4 (n : Nat) : List Char :=
  [Nat.digitChar (n / 4096 % 16), Nat.digitChar (n / 256 % 16), Nat.digitChar (n / 16 % 16),
    Nat.digitChar (n % 16)]

/-- The escape of one character inside a JSON string, as `json.Marshal` writes it (with its
default HTML escaping of `<`, `>`, `&`). -/
def escapeChar (c : Char) : List Char :=
  if c = '"' then ['\\', '"']
  else if c = '\\' then ['\\', '\\']
  else if c = '\n' then ['\\', 'n']
  else if c = '\r' then ['\\', 'r']
  else if c = '\t' then ['\\', 't']
  else if c.toNat < 32 ∨ c = '<' ∨ c = '>' ∨ c = '&' ∨ c.toNat = 8232 ∨ c.toNat = 8233 then
    '\\' :: 'u' :: hex4 c.toNat
  else [c]

/-- A quoted JSON string. -/
def quote (s : String) : List Char :=
  '"' :: (s.data.flatMap escapeChar ++ ['"'])

/-- The kinds of JSON value a decoder of flat records tells apart; the content of a nested
array or object is checked for syntax and dropped. -/
inductive Value where
  | null
  | bool (b : Bool)
  | number (lit : String)
  | string (s : String)
  | array
  | object
  deriving DecidableEq, Repr

/-- A parsed document: an object with its members in order, or any other value. -/
inductive Document where
  | members (kvs : List (String × Value))
  | other (v : Value)
  deriving DecidableEq, Repr

/-- Skips JSON white space. -/
def skipWS : List Char → List Char
  | [] => []
  | c :: cs => if c = ' ' ∨ c = '\t' ∨ c = '\n' ∨ c = '\r' then skipWS cs else c :: cs

/-- Value of a hexadecimal digit. -/
def hexVal (c : Char) : Option Nat :=
  if 48 ≤ c.toNat ∧ c.toNat ≤ 57 then some (c.toNat - 48)
  else if 97 ≤ c.toNat ∧ c.toNat ≤ 102 then some (c.toNat - 87)
  else if 65 ≤ c.toNat ∧ c.toNat ≤ 70 then some (c.toNat - 55)
  else none

/-- The code unit of four hexadecimal digits. -/
def hexUnit (a b c d : Char) : Option Nat :=
  match hexVal a, hexVal b, hexVal c, hexVal d with
  | some x, some y, some z, some w => some (((x * 16 + y) * 16 + z) * 16 + w)
  | _, _, _, _ => none

/-- Scans a string after its opening quote: the decoded text (reversed in `acc`) and the
input after the closing quote.  A lone surrogate escape decodes to U+FFFD.  Each step consumes
input, so fuel above the input's length is enough. -/
def scanStringAux : Nat → List Char → List Char → Option (String × List Char)
  | 0, _, _ => none
  | _ + 1, [], _ => none
  | fuel + 1, c :: cs, acc =>
    if c = '"' then some (String.mk acc.reverse, cs)
    else if c = '\\' then
      match cs with
      | 'u' :: a :: b :: c :: d :: cs1 =>
        match hexUnit a b c d with
        | none => none
        | some hi =>
          if 55296 ≤ hi ∧ hi < 56320 then
            match cs1 with
            | '\\' :: 'u' :: e :: f :: g :: h :: cs2 =>
              match hexUnit e f g h with
              | some lo =>
                if 56320 ≤ lo ∧ lo < 57344 then
                  scanStringAux fuel cs2
                    (Char.ofNat (65536 + (hi - 55296) * 1024 + (lo - 56320)) :: acc)
                else scanStringAux fuel cs1 (Char.ofNat 65533 :: acc)
              | none => scanStringAux fuel cs1 (Char.ofNat 65533 :: acc)
            | _ => scanStringAux fuel cs1 (Char.ofNat 65533 :: acc)
          else if 56320 ≤ hi ∧ hi < 57344 then scanStringAux fuel cs1 (Char.ofNat 65533 :: acc)
          else scanStringAux fuel cs1 (Char.ofNat hi :: acc)
      | e :: cs1 =>
        if e = '"' then scanStringAux fuel cs1 ('"' :: acc)
        else if e = '\\' then scanStringAux fuel cs1 ('\\' :: acc)
        else if e = '/' then scanStringAux fuel cs1 ('/' :: acc)
        else if e = 'b' then scanStringAux fuel cs1 (Char.ofNat 8 :: acc)
        else if e = 'f' then scanStringAux fuel cs1 (Char.ofNat 12 :: acc)
        else if e = 'n' then scanStringAux fuel cs1 ('\n' :: acc)
        else if e = 'r' then scanStringAux fuel cs1 ('\r' :: acc)
        else if e = 't' then scanStringAux fuel cs1 ('\t' :: acc)
        else none
      | [] => none
    else if c.toNat < 32 then none
    else scanStringAux fuel cs (c :: acc)

/-- Scans a string after its opening quote. -/
def scanString (cs : List Char) (acc : List Char) : Option (String × List Char) :=
  scanStringAux (cs.length + 1) cs acc

/-- Takes the longest run of decimal digits. -/
def spanDigits : List Char → List Char × List Char
  | [] => ([], [])
  | c :: cs =>
    if 48 ≤ c.toNat ∧ c.toNat ≤ 57 then
      let r := spanDigits cs
      (c :: r.1, r.2)
    else ([], c :: cs)

/-- Scans the optional fraction and exponent of a number. -/
def scanFracExp (cs : List Char) : Option (List Char × List Char) :=
  let fr : Option (List Char × List Char) :=
    match cs with
    | '.' :: rest =>
      match spanDigits rest with
      | ([], _) => none
      | (ds, rest2) => some ('.' :: ds, rest2)
    | _ => some ([], cs)
  match fr with
  | none => none
  | some (f, rest) =>
    match rest with
    | e :: rest2 =>
      if e = 'e' ∨ e = 'E' then
        let sg : List Char × List Char :=
          match rest2 with
          | g :: rest3 => if g = '+' ∨ g = '-' then ([g], rest3) else ([], rest2)
          | [] => ([], [])
        match spanDigits sg.2 with
        | ([], _) => none
        | (ds, rest4) => some (f ++ e :: sg.1 ++ ds, rest4)
      else some (f, rest)
    | [] => some (f, rest)

/-- Scans a number literal: `-? (0 | [1-9][0-9]*) (.[0-9]+)? ([eE][+-]?[0-9]+)?`. -/
def scanNumber (cs : List Char) : Option (String × List Char) :=
  let sg : List Char × List Char :=
    match cs with
    | '-' :: rest => (['-'], rest)
    | _ => ([], cs)
  let ip : Option (List Char × List Char) :=
    match sg.2 with
    | '0' :: rest => some (['0'], rest)
    | _ =>
      match spanDigits sg.2 with
      | ([], _) => none
      | (ds, rest) => some (ds, rest)
  match ip with
  | none => none
  | some (ds, rest) =>
    match scanFracExp rest with
    | none => none
    | some (fe, rest2) => some (String.mk (sg.1 ++ ds ++ fe), rest2)

/-- Scans the elements of an array after the first one: `(, value)* ]`. -/
def scanElems (scan : List Char → Option (Value × List Char)) :
    Nat → List Char → Option (List Char)
  | 0, _ => none
  | fuel + 1, cs =>
    match skipWS cs with
    | ']' :: rest => some rest
    | ',' :: rest =>
      match scan (skipWS rest) with
      | some (_, rest2) => scanElems scan fuel rest2
      | none => none
    | _ => none

/-- Scans one member `"key" : value`. -/
def scanMember (scan : List Char → Option (Value × List Char)) (cs : List Char) :
    Option ((String × Value) × List Char) :=
  match cs with
  | '"' :: rest =>
    match scanString rest [] with
    | some (k, rest2) =>
      match skipWS rest2 with
      | ':' :: rest3 =>
        match scan (skipWS rest3) with
        | some (v, rest4) => some ((k, v), rest4)
        | none => none
      | _ => none
    | none => none
  | _ => none

/-- Scans the members of an object after the first one: `(, member)* }`. -/
def scanMembers (scan : List Char → Option (Value × List Char)) :
    Nat → List Char → List (String × Value) → Option (List (String × Value) × List Char)
  | 0, _, _ => none
  | fuel + 1, cs, acc =>
    match skipWS cs with
    | '}' :: rest => some (acc.reverse, rest)
    | ',' :: rest =>
      match scanMember scan (skipWS rest) with
      | some (kv, rest2) => scanMembers scan fuel rest2 (kv :: acc)
      | none => none
    | _ => none

/-- Scans an object after its opening brace. -/
def scanObject (scan : List Char → Option (Value × List Char)) (cs : List Char) :
    Option (List (String × Value) × List Char) :=
  match skipWS cs with
  | '}' :: rest => some ([], rest)
  | rest =>
    match scanMember scan rest with
    | some (kv, rest2) => scanMembers scan (rest2.length + 1) rest2 [kv]
    | none => none

/-- Scans one value at the head of the input (no leading white space); `fuel` bounds the
nesting depth. -/
def scanValue : Nat → List Char → Option (Value × List Char)
  | 0, _ => none
  | fuel + 1, cs =>
    match cs with
    | 'n' :: 'u' :: 'l' :: 'l' :: rest => some (Value.null, rest)
    | 't' :: 'r' :: 'u' :: 'e' :: rest => some (Value.bool true, rest)
    | 'f' :: 'a' :: 'l' :: 's' :: 'e' :: rest => some (Value.bool false, rest)
    | '"' :: rest =>
      match scanString rest [] with
      | some (s, rest2) => some (Value.string s, rest2)
      | none => none
    | '[' :: rest =>
      match skipWS rest with
      | ']' :: rest2 => some (Value.array, rest2)
      | rest2 =>
        match scanValue fuel rest2 with
        | some (_, rest3) =>
          match scanElems (scanValue fuel) (rest3.length + 1) rest3 with
          | some rest4 => some (Value.array, rest4)
          | none => none
        | none => none
    | '{' :: rest =>
      match scanObject (scanValue fuel) rest with
      | some (_, rest2) => some (Value.object, rest2)
      | none => none
    | _ =>
      match scanNumber cs with
      | some (lit, rest) => some (Value.number lit, rest)
      | none => none

/-- Parses a whole document: one value surrounded by optional white space. -/
def parse (data : String) : Option Document :=
  let cs := skipWS data.data
  let fuel := cs.length + 1
  match cs with
  | '{' :: rest =>
    match scanObject (scanValue fuel) rest with
    | some (kvs, rest2) => if skipWS rest2 = [] then some (Document.members kvs) else none
    | none => none
  | _ =>
    match scanValue fuel cs with
    | some (v, rest) => if skipWS rest = [] then some (Document.other v) else none
    | none => none

/-- The errors of `json.Unmarshal`.  The position and offending character of a syntax error
are not tracked. -/
inductive Error where
  | SyntaxError
  | UnmarshalTypeError (Value : String) (Struct : String) (Field : String) (Typ : String)
  deriving DecidableEq, Repr

/-- The text `err.Error()`. -/
def Error.text : Error → String
  | Error.SyntaxError => "invalid JSON input"
  | Error.UnmarshalTypeError v st f ty =>
    if st = "" ∧ f = "" then "json: cannot unmarshal " ++ v ++ " into Go value of type " ++ ty
    else "json: cannot unmarshal " ++ v ++ " into Go struct field " ++ st ++ "." ++ f
      ++ " of type " ++ ty

/-- The name of a value's kind in a type error. -/
def Value.kind : Value → String
  | Value.null => "null"
  | Value.bool _ => "bool"
  | Value.number _ => "number"
  | Value.string _ => "string"
  | Value.array => "array"
  | Value.object => "object"

/-- Case folding of member names: ASCII letters, and the two non-ASCII letters that fold
to ASCII ones. -/
def foldChar (c : Char) : Char :=
  if 97 ≤ c.toNat ∧ c.toNat ≤ 122 then Char.ofNat (c.toNat - 32)
  else if c.toNat = 383 then 'S'
  else if c.toNat = 8490 then 'K'
  else c

/-- Whether a member name selects the field tagged `name`. -/
def keyMatches (name key : String) : Bool :=
  key.data.map foldChar == name.data.map foldChar

end json

/-! ## Requests and responses (`net/url`, `net/http`, `net/http/httptest`) -/

namespace url

/-- The parsed query of a URL (`url.Values`): each key with its values in order. -/
abbrev Values := List (String × List String)

/-- The method `Values.Get`: the first value of the key, or the empty string. -/
def Values.Get (q : Values) (key : String) : String :=
  match q.lookup key with
  | some (v :: _) => v
  | _ => ""

end url

namespace http

/-- Status code 200. -/
def StatusOK : Int := 200
/-- Status code 400. -/
def StatusBadRequest : Int := 400
/-- Status code 404. -/
def StatusNotFound : Int := 404
/-- Status code 500. -/
def StatusInternalServerError : Int := 500

/-- The table `http.StatusText`; the empty string for a code it does not know. -/
def StatusText (code : Int) : String :=
  if code = 100 then "Continue" else if code = 101 then "Switching Protocols"
  else if code = 102 then "Processing" else if code = 103 then "Early Hints"
  else if code = 200 then "OK" else if code = 201 then "Created"
  else if code = 202 then "Accepted" else if code = 203 then "Non-Authoritative Information"
  else if code = 204 then "No Content" else if code = 205 then "Reset Content"
  else if code = 206 then "Partial Content" else if code = 207 then "Multi-Status"
  else if code = 208 then "Already Reported" else if code = 226 then "IM Used"
  else if code = 300 then "Multiple Choices" else if code = 301 then "Moved Permanently"
  else if code = 302 then "Found" else if code = 303 then "See Other"
  else if code = 304 then "Not Modified" else if code = 305 then "Use Proxy"
  else if code = 307 then "Temporary Redirect" else if code = 308 then "Permanent Redirect"
  else if code = 400 then "Bad Request" else if code = 401 then "Unauthorized"
  else if code = 402 then "Payment Required" else if code = 403 then "Forbidden"
  else if code = 404 then "Not Found" else if code = 405 then "Method Not Allowed"
  else if code = 406 then "Not Acceptable"
  else if code = 407 then "Proxy Authentication Required"
  else if code = 408 then "Request Timeout" else if code = 409 then "Conflict"
  else if code = 410 then "Gone" else if code = 411 then "Length Required"
  else if code = 412 then "Precondition Failed"
  else if code = 413 then "Request Entity Too Large"
  else if code = 414 then "Request URI Too Long"
  else if code = 415 then "Unsupported Media Type"
  else if code = 416 then "Requested Range Not Satisfiable"
  else if code = 417 then "Expectation Failed" else if code = 418 then "I'm a teapot"
  else if code = 421 then "Misdirected Request" else if code = 422 then "Unprocessable Entity"
  else if code = 423 then "Locked" else if code = 424 then "Failed Dependency"
  else if code = 425 then "Too Early" else if code = 426 then "Upgrade Required"
  else if code = 428 then "Precondition Required" else if code = 429 then "Too Many Requests"
  else if code = 431 then "Request Header Fields Too Large"
  else if code = 451 then "Unavailable For Legal Reasons"
  else if code = 500 then "Internal Server Error" else if code = 501 then "Not Implemented"
  else if code = 502 then "Bad Gateway" else if code = 503 then "Service Unavailable"
  else if code = 504 then "Gateway Timeout"
  else if code = 505 then "HTTP Version Not Supported"
  else if code = 506 then "Variant Also Negotiates"
  else if code = 507 then "Insufficient Storage" else if code = 508 then "Loop Detected"
  else if code = 510 then "Not Extended"
  else if code = 511 then "Network Authentication Required"
  else ""

/-- What a handler reads of a GET request: `r.URL.Path` and `r.URL.Query()`. -/
structure Request where
  Path : String
  Query : url.Values
  deriving DecidableEq, Repr

/-- What a client reads of a response: the status line text after the protocol version, the
status code, the declared content length (`-1` when unknown), and the outcome of reading the
body to its end (`io.ReadAll`): the bytes, as text, or a read error. -/
structure Response where
  Status : String
  StatusCode : Int
  ContentLength : Int
  Body : Except String String

end http

namespace httptest

/-- What a handler has written through its `http.ResponseWriter` when it returns: the
`Content-Type` header it set, the status code (200 when `WriteHeader` was not called), and the
bytes written. -/
structure ResponseRecorder where
  ContentType : String
  Code : Int
  Body : String
  deriving DecidableEq, Repr

/-- A running test server as a client reaches it: the answer to a GET, or a transport
error (for instance after `Close`). -/
structure Server where
  Get : http.Request → Except String http.Response

/-- The response a client receives for what a handler wrote.  The status text comes from
`http.StatusText`; a body the handler finished within the server's 2048-byte write buffer is
sent with its length declared, a longer one is sent chunked, with no declared length. -/
def deliver (w : ResponseRecorder) : http.Response :=
  { Status := strconv.Itoa w.Code ++ " " ++
      (if http.StatusText w.Code = "" then "status code " ++ strconv.Itoa w.Code
       else http.StatusText w.Code)
    StatusCode := w.Code
    ContentLength := if w.Body.utf8ByteSize ≤ 2048 then (w.Body.utf8ByteSize : Int) else -1
    Body := Except.ok w.Body }

/-- Model of `httptest.NewServer(handler)`. -/
def NewServer (handler : http.Request → ResponseRecorder) : Server :=
  { Get := fun r => Except.ok (deliver (handler r)) }

end httptest

/-! ## The simulated division service (`httpapi/server`) -/

namespace server

/-- The struct `DivisionResult`, JSON member `remainder`. -/
structure DivisionResult where
  Remainder : Int
  deriving DecidableEq, Repr

/-- The struct `ErrorResult`, JSON member `message`. -/
structure ErrorResult where
  Message : String
  deriving DecidableEq, Repr

/-- The text `json.Marshal` produces for a `DivisionResult`; it cannot fail. -/
def marshalDivisionResult (r : DivisionResult) : Except json.Error String :=
  Except.ok ("\x7b\"remainder\":" ++ strconv.Itoa r.Remainder ++ "\x7d")

/-- The text `json.Marshal` produces for an `ErrorResult`; it cannot fail. -/
def marshalErrorResult (r : ErrorResult) : Except json.Error String :=
  Except.ok ("\x7b\"message\":" ++ String.mk (json.quote r.Message) ++ "\x7d")

/-- Decoding one member value into the `int` field `Remainder`: `null` leaves it, an integer
literal within range sets it, anything else is a type error. -/
def storeRemainder (v : json.Value) (cur : DivisionResult) : DivisionResult × Option json.Error :=
  match v with
  | json.Value.null => (cur, none)
  | json.Value.number lit =>
    match strconv.Atoi lit with
    | some n => ({ Remainder := n }, none)
    | none =>
      (cur, some (json.Error.UnmarshalTypeError ("number " ++ lit) "DivisionResult" "remainder"
        "int"))
  | w => (cur, some (json.Error.UnmarshalTypeError w.kind "DivisionResult" "remainder" "int"))

/-- Decoding one member value into the `string` field `Message`. -/
def storeMessage (v : json.Value) (cur : ErrorResult) : ErrorResult × Option json.Error :=
  match v with
  | json.Value.null => (cur, none)
  | json.Value.string t => ({ Message := t }, none)
  | w => (cur, some (json.Error.UnmarshalTypeError w.kind "ErrorResult" "message" "string"))

/-- Decodes the members of an object in order into a one-field record: a member whose name
matches the field sets it, other members are skipped; decoding goes on after a type error and
the first one is reported. -/
def decodeMembers {α : Type} (name : String) (store : json.Value → α → α × Option json.Error) :
    List (String × json.Value) → α → Option json.Error → α × Option json.Error
  | [], cur, err => (cur, err)
  | (k, v) :: rest, cur, err =>
    if json.keyMatches name k then
      let r := store v cur
      decodeMembers name store rest r.1 (if err.isSome then err else r.2)
    else decodeMembers name store rest cur err

/-- Model of `json.Unmarshal(data, &result)` for a `DivisionResult` that starts at its zero
value. -/
def unmarshalDivisionResult (data : String) : Except json.Error DivisionResult :=
  match json.parse data with
  | none => Except.error json.Error.SyntaxError
  | some (json.Document.members kvs) =>
    match decodeMembers "remainder" storeRemainder kvs { Remainder := 0 } none with
    | (r, none) => Except.ok r
    | (_, some e) => Except.error e
  | some (json.Document.other json.Value.null) => Except.ok { Remainder := 0 }
  | some (json.Document.other v) =>
    Except.error (json.Error.UnmarshalTypeError v.kind "" "" "server.DivisionResult")

/-- Model of `json.Unmarshal(data, &er)` for an `ErrorResult` that starts at its zero value. -/
def unmarshalErrorResult (data : String) : Except json.Error ErrorResult :=
  match json.parse data with
  | none => Except.error json.Error.SyntaxError
  | some (json.Document.members kvs) =>
    match decodeMembers "message" storeMessage kvs { Message := "" } none with
    | (r, none) => Except.ok r
    | (_, some e) => Except.error e
  | some (json.Document.other json.Value.null) => Except.ok { Message := "" }
  | some (json.Document.other v) =>
    Except.error (json.Error.UnmarshalTypeError v.kind "" "" "server.ErrorResult")

/-- The function `newErrorJSON`. -/
def newErrorJSON (message : String) : String :=
  match marshalErrorResult { Message := message } with
  | Except.error _ => "\x7b\"message\":\"Internal Server Error\"\x7d"
  | Except.ok errorJSON => errorJSON

/-- The function `getIntFromQuery`; `none` stands for the returned error. -/
def getIntFromQuery (q : url.Values) (param : String) : Option Int :=
  match strconv.Atoi (q.Get param) with
  | none => none
  | some value => some value

/-- The handler's local variables `errorJSON`, `resultJSON`, `statusCode`; a nil slice is the
empty text. -/
structure handlerVars where
  errorJSON : String
  resultJSON : String
  statusCode : Int
  deriving DecidableEq, Repr

/-- The handler's `switch r.URL.Path` (lines 67-104): the variables when the handler
returns.  They start as nil, nil, 400. -/
def route (r : http.Request) : handlerVars :=
  if r.Path = "/divide" then
    match getIntFromQuery r.Query "a" with
    | none =>
      { errorJSON := newErrorJSON "Invalid query parameter: 'a'", resultJSON := "",
        statusCode := http.StatusBadRequest }
    | some a =>
      match getIntFromQuery r.Query "b" with
      | none =>
        { errorJSON := newErrorJSON "Invalid query parameter: 'b'", resultJSON := "",
          statusCode := http.StatusBadRequest }
      | some b =>
        if b = 0 then
          { errorJSON := newErrorJSON "Division by zero is not allowed", resultJSON := "",
            statusCode := http.StatusBadRequest }
        else
          let result : DivisionResult := { Remainder := Int.tmod a b }
          match marshalDivisionResult result with
          | Except.error _ =>
            { errorJSON := newErrorJSON "Failed to marshal JSON", resultJSON := "",
              statusCode := http.StatusInternalServerError }
          | Except.ok resultJSON =>
            { errorJSON := "", resultJSON := resultJSON, statusCode := http.StatusOK }
  else
    { errorJSON := newErrorJSON "Unsupported path", resultJSON := "",
      statusCode := http.StatusNotFound }

/-- The handler's deferred function (lines 49-65): what is written to the client. -/
def deferred (v : handlerVars) : httptest.ResponseRecorder :=
  if v.errorJSON.utf8ByteSize > 0 then
    { ContentType := "application/json", Code := v.statusCode, Body := v.errorJSON }
  else if v.statusCode = http.StatusOK then
    { ContentType := "application/json", Code := http.StatusOK, Body := v.resultJSON }
  else
    { ContentType := "application/json", Code := http.StatusInternalServerError,
      Body := newErrorJSON "Internal Server Error" }

/-- The handler of `New`: the switch, then the deferred writer. -/
def handler (r : http.Request) : httptest.ResponseRecorder := deferred (route r)

/-- The function `New`: the test server running the handler. -/
def New : httptest.Server := httptest.NewServer handler

end server

/-! ## The remote classifier (`httpapi`) -/

namespace httpapi

/-- The constant `maxResponseSize`. -/
def maxResponseSize : Int := 1024

/-- The request `GET <server URL>/divide?a=<a>&b=<b>` built from the constant `requestPath`,
as the server's handler reads it: the path and the parsed query. -/
def requestPath (a b : Int) : http.Request :=
  { Path := "/divide", Query := [("a", [strconv.Itoa a]), ("b", [strconv.Itoa b])] }

/-- The struct `API`; its context and wait group only control when the server is closed. -/
structure API where
  server : httptest.Server

/-- The function `New`: an `API` with an embedded server of `server.New`. -/
def New : API := { server := server.New }

/-- The method `divide`: the returned pair `(int, error)`, the error as the text of
`err.Error()` or `none` for nil. -/
def API.divide (api : API) (a b : Int) : Int × Option String :=
  match api.server.Get (requestPath a b) with
  | Except.error err => (0, some ("failed to call API: " ++ err))
  | Except.ok resp =>
    if resp.ContentLength > maxResponseSize then
      (0, some ("response too large: " ++ strconv.Itoa resp.ContentLength ++ " bytes"))
    else if resp.ContentLength < 0 then
      (0, some "response size unknown, will not process")
    else
      match resp.Body with
      | Except.error err =>
        (0, some ("failed to read response body on response status " ++ resp.Status ++ ": "
          ++ err))
      | Except.ok bodyBytes =>
        if resp.StatusCode = http.StatusOK then
          match server.unmarshalDivisionResult bodyBytes with
          | Except.error err => (0, some ("failed to decode result response: " ++ err.text))
          | Except.ok result => (result.Remainder, none)
        else
          match server.unmarshalErrorResult bodyBytes with
          | Except.error err =>
            (0, some ("failed to decode error response for status code "
              ++ strconv.Itoa resp.StatusCode ++ ": " ++ err.text))
          | Except.ok er =>
            if resp.StatusCode = http.StatusBadRequest then
              (0, some (resp.Status ++ ": " ++ er.Message))
            else if resp.StatusCode ≥ 400 ∧ resp.StatusCode ≤ 499 then
              (0, some (resp.Status ++ ": " ++ er.Message))
            else if resp.StatusCode = http.StatusInternalServerError then
              (0, some (resp.Status ++ ": " ++ er.Message))
            else
              (0, some ("unexpected status code: " ++ resp.Status ++ ": " ++ er.Message))

/-- The method `commonDivide`: the returned boolean, and the record it logs on an error. -/
def API.commonDivide (api : API) (i : Int) (divisor : Int) : Bool × List slog.Record :=
  match api.divide i divisor with
  | (_, some err) => (false, [slog.Error "Error calling divide API" [slog.StringAttr "error" err]])
  | (result, none) => (result == 0, [])

/-- The method `Fizz`. -/
def API.Fizz (api : API) (i : Int) : Bool := (api.commonDivide i 3).1

/-- The method `Buzz`. -/
def API.Buzz (api : API) (i : Int) : Bool := (api.commonDivide i 5).1

/-- The `API` as a `repository.FizzBuzzer`. -/
def API.FizzBuzzer (api : API) : repository.FizzBuzzer :=
  { Fizz := api.Fizz, Buzz := api.Buzz }

/-- An `API` whose server answers every request with one fixed response, as the mock servers
of `httpapi_test.go` do. -/
def canned (resp : http.Response) : API :=
  { server := { Get := fun _ => Except.ok resp } }

/-- The error text `divide` builds from a decoded error record, by status class. -/
def statusErrorText (resp : http.Response) (er : server.ErrorResult) : String :=
  if resp.StatusCode = 400 ∨ (400 ≤ resp.StatusCode ∧ resp.StatusCode ≤ 499)
      ∨ resp.StatusCode = 500 then
    resp.Status ++ ": " ++ er.Message
  else "unexpected status code: " ++ resp.Status ++ ": " ++ er.Message

end httpapi

/-! ## The classifier as the specification words it -/

namespace spec

/-- Following the specification (4.1 Classifier): `isFizz(n)` is true iff `n mod 3 == 0`. -/
def isFizz (n : Int) : Bool := n % 3 == 0

/-- Following the specification (4.1 Classifier): `isBuzz(n)` is true iff `n mod 5 == 0`. -/
def isBuzz (n : Int) : Bool := n % 5 == 0

end spec

/-! ## Proofs: the pipeline -/

namespace app

theorem inv_init (fb : FizzBuzz) (hN : 0 ≤ fb.upperLimit) (ch : Chan)
    (hch : make (Int.tdiv fb.upperLimit 2) = some ch) : Inv fb (initState ch) := by
  unfold make at hch
  split at hch
  · cases hch
  · cases hch
    refine ⟨0, 0, ?_⟩
    simp [InvAt, initState, hN]

theorem make_of_nonneg (N : Int) (hN : 0 ≤ N) :
    make (Int.tdiv N 2) = some { cap := (Int.tdiv N 2).toNat, buf := [], closed := false } := by
  have h : ¬ Int.tdiv N 2 < 0 := by
    have := Int.tdiv_nonneg hN (by norm_num : (0 : Int) ≤ 2)
    omega
  simp [make, h]

theorem inv_step (fb : FizzBuzz) (s t : RunState) (hI : Inv fb s) (hst : Step fb s t) :
    Inv fb t := by
  obtain ⟨k, m, hout, hbuf, hi, hle, hcap, hm, hcl, hdone⟩ := hI
  unfold Step at hst
  rw [List.mem_append] at hst
  rcases hst with hc | hp
  · -- consumer
    unfold consumerSteps at hc
    split at hc
    · simp at hc
    · rename_i hnd
      split at hc
      · rename_i r rest hr
        simp only [List.mem_singleton] at hc
        subst hc
        cases m with
        | zero => simp [hr] at hbuf
        | succ m' =>
          rw [hr, List.range'_succ, List.map_cons, List.cons.injEq] at hbuf
          obtain ⟨hr1, hr2⟩ := hbuf
          refine ⟨k + 1, m', ?_, ?_, ?_, ?_, ?_, ?_, ?_, ?_⟩
          · simp only [hout, hr1]
            rw [List.range'_1_concat, List.map_append]
            simp [Nat.add_comm]
          · simpa using hr2
          · simp only [hi]; push_cast; ring
          · have : k + 1 + m' = k + (m' + 1) := by omega
            rw [this]; exact hle
          · exact hcap
          · simp only; omega
          · intro h
            have := hcl h
            have e : k + 1 + m' = k + (m' + 1) := by omega
            rw [e]; exact this
          · intro h; exact absurd h hnd
      · rename_i hr
        split at hc
        · rename_i hclosed
          simp only [List.mem_singleton] at hc
          subst hc
          have hm0 : m = 0 := by
            cases m with
            | zero => rfl
            | succ m' => simp [hr, List.range'_succ] at hbuf
          refine ⟨k, m, hout, hbuf, hi, hle, hcap, hm, hcl, ?_⟩
          intro _
          exact ⟨hclosed, hm0⟩
        · simp at hc
  · -- producer
    unfold producerSteps at hp
    split at hp
    · simp at hp
    · rename_i hncl
      split at hp
      · rename_i hiN
        rw [List.mem_append] at hp
        have hlen : s.ch.buf.length = m := by simp [hbuf]
        have hnd : s.consumerDone = true → False := fun h => hncl (hdone h).1
        rcases hp with h1 | h2
        · split at h1
          · rename_i hroom
            simp only [List.mem_singleton] at h1
            subst h1
            refine ⟨k, m + 1, hout, ?_, ?_, ?_, hcap, ?_, ?_, ?_⟩
            · simp only [hbuf, hi]
              rw [List.range'_concat, List.map_append]
              simp
              congr 1
              ring
            · simp only [hi]; push_cast; ring
            · rw [hi] at hiN
              have : ((k + (m + 1) : Nat) : Int) = ((k + m + 1 : Nat) : Int) := by push_cast; ring
              rw [this]; exact hiN
            · simp only; omega
            · intro h; exact absurd h hncl
            · intro h; exact absurd h (fun h => hnd h)
          · simp at h1
        · split at h2
          · rename_i hwait
            simp only [List.mem_singleton] at h2
            subst h2
            have hm0 : m = 0 := by
              simp only [Bool.and_eq_true, List.isEmpty_iff] at hwait
              rw [← hlen, hwait.1]; rfl
            subst hm0
            refine ⟨k + 1, 0, ?_, ?_, ?_, ?_, hcap, ?_, ?_, ?_⟩
            · simp only [hout, hi]
              rw [List.range'_1_concat, List.map_append]
              simp [Nat.add_comm]
            · simp only [hbuf]; simp
            · simp only [hi]; push_cast; ring
            · rw [hi] at hiN
              simpa using hiN
            · omega
            · intro h; exact absurd h hncl
            · intro h; exact absurd h (fun h => hnd h)
          · simp at h2
      · rename_i hiN
        simp only [List.mem_singleton] at hp
        subst hp
        refine ⟨k, m, hout, hbuf, hi, hle, hcap, hm, ?_, ?_⟩
        · intro _
          rw [hi] at hiN
          push_cast at hiN hle ⊢
          omega
        · intro h
          exact absurd (hdone h).1 hncl

theorem reachable_inv (fb : FizzBuzz) (s t : RunState) (hI : Inv fb s)
    (hr : Reachable fb s t) : Inv fb t := by
  induction hr with
  | refl => exact hI
  | step _ hst ih => exact inv_step fb _ _ ih hst

theorem measure_step (fb : FizzBuzz) (s t : RunState) (hst : Step fb s t) :
    measure fb t < measure fb s := by
  unfold Step at hst
  rw [List.mem_append] at hst
  rcases hst with hc | hp
  · unfold consumerSteps at hc
    split at hc
    · simp at hc
    · rename_i hnd
      split at hc
      · rename_i r rest hr
        simp only [List.mem_singleton] at hc
        subst hc
        simp [measure, hr]
      · split at hc
        · simp only [List.mem_singleton] at hc
          subst hc
          simp [measure, hnd]
        · simp at hc
  · unfold producerSteps at hp
    split at hp
    · simp at hp
    · rename_i hncl
      split at hp
      · rename_i hiN
        have e : (fb.upperLimit + 1 - (s.i + 1)).toNat + 1 = (fb.upperLimit + 1 - s.i).toNat := by
          omega
        rw [List.mem_append] at hp
        rcases hp with h1 | h2
        · split at h1
          · simp only [List.mem_singleton] at h1
            subst h1
            simp only [measure, List.length_append, List.length_singleton]
            omega
          · simp at h1
        · split at h2
          · simp only [List.mem_singleton] at h2
            subst h2
            simp only [measure]
            omega
          · simp at h2
      · simp only [List.mem_singleton] at hp
        subst hp
        simp [measure, hncl]

theorem schedule_progress (fb : FizzBuzz) (s : RunState) (hnd : s.consumerDone = false) :
    ∃ t, schedule fb s = some t := by
  have hne : consumerSteps s ++ producerSteps fb s ≠ [] := by
    unfold consumerSteps producerSteps
    rw [hnd]
    cases hb : s.ch.buf with
    | cons r rest => simp
    | nil =>
      cases hc : s.ch.closed with
      | true => simp
      | false =>
        by_cases hi : s.i ≤ fb.upperLimit
        · simp [hi]
        · simp [hi]
  unfold schedule
  cases h : (consumerSteps s ++ producerSteps fb s) with
  | nil => exact absurd h hne
  | cons t _ => exact ⟨t, rfl⟩

theorem schedule_step (fb : FizzBuzz) (s t : RunState) (h : schedule fb s = some t) :
    Step fb s t := by
  unfold schedule at h
  unfold Step
  exact List.mem_of_mem_head? h

theorem runFuel_reachable (fb : FizzBuzz) (fuel : Nat) (s : RunState) :
    Reachable fb s (runFuel fb fuel s) := by
  induction fuel generalizing s with
  | zero => exact Reachable.refl
  | succ n ih =>
    unfold runFuel
    cases h : schedule fb s with
    | none => exact Reachable.refl
    | some t =>
      simp only
      have h1 : ∀ u, Reachable fb t u → Reachable fb s u := by
        intro u hu
        induction hu with
        | refl => exact Reachable.step Reachable.refl (schedule_step fb s t h)
        | step _ hs ih2 => exact Reachable.step ih2 hs
      exact h1 _ (ih t)

theorem runFuel_done (fb : FizzBuzz) (fuel : Nat) (s : RunState)
    (hm : measure fb s ≤ fuel) : (runFuel fb fuel s).consumerDone = true := by
  induction fuel generalizing s with
  | zero =>
    unfold runFuel
    cases hd : s.consumerDone with
    | true => rfl
    | false => simp [measure, hd] at hm
  | succ n ih =>
    unfold runFuel
    cases h : schedule fb s with
    | none =>
      cases hd : s.consumerDone with
      | true => simp [hd]
      | false =>
        obtain ⟨t, ht⟩ := schedule_progress fb s hd
        rw [h] at ht
        cases ht
    | some t =>
      simp only
      apply ih
      have := measure_step fb s t (schedule_step fb s t h)
      omega

theorem logLine_message (fb : FizzBuzz) (i : Int) :
    (logLine (mkResult fb i)).Message = expectedMessage fb.repo i := by
  unfold logLine mkResult expectedMessage
  cases fb.repo.Fizz i <;> cases fb.repo.Buzz i <;> simp [slog.Info]

theorem messages_lines (fb : FizzBuzz) (k : Nat) :
    messages ((List.range' 1 k).map (fun (j : Nat) => logLine (mkResult fb (j : Int))))
      = (upTo k).map (expectedMessage fb.repo) := by
  unfold messages upTo
  rw [List.map_map, List.map_map]
  apply List.map_congr_left
  intro j _
  exact logLine_message fb j

theorem inv_messages (fb : FizzBuzz) (s : RunState) (hI : Inv fb s) :
    (∃ k, k ≤ fb.upperLimit.toNat ∧ s.out.length = k
        ∧ messages s.out = (upTo k).map (expectedMessage fb.repo))
    ∧ (s.consumerDone = true → s.out.length = fb.upperLimit.toNat
        ∧ messages s.out = (upTo fb.upperLimit.toNat).map (expectedMessage fb.repo)) := by
  obtain ⟨k, m, hout, hbuf, hi, hle, hcap, hm, hcl, hdone⟩ := hI
  have hlen : s.out.length = k := by simp [hout]
  have hmsg : messages s.out = (upTo k).map (expectedMessage fb.repo) := by
    rw [hout]; exact messages_lines fb k
  constructor
  · refine ⟨k, ?_, hlen, hmsg⟩
    push_cast at hle
    omega
  · intro hd
    obtain ⟨hc, hm0⟩ := hdone hd
    have hk := hcl hc
    subst hm0
    have e : fb.upperLimit.toNat = k := by
      simp only [Nat.add_zero] at hk
      omega
    rw [e]
    exact ⟨hlen, hmsg⟩

theorem measure_init (fb : FizzBuzz) (hN : 0 ≤ fb.upperLimit) (ch : Chan)
    (hch : make (Int.tdiv fb.upperLimit 2) = some ch) :
    measure fb (initState ch) ≤ 2 * fb.upperLimit.toNat + 2 := by
  rw [make_of_nonneg _ hN] at hch
  cases hch
  simp only [measure, initState, List.length_nil]
  simp

/-- The fixed scheduler brings `Run` to its return, with one line per integer of `1..N`. -/
theorem Run_returns (fb : FizzBuzz) (hN : 0 ≤ fb.upperLimit) :
    ∃ out, Run fb = Outcome.returned out
      ∧ out.length = fb.upperLimit.toNat
      ∧ messages out = (upTo fb.upperLimit.toNat).map (expectedMessage fb.repo) := by
  have hmk := make_of_nonneg fb.upperLimit hN
  have hI := inv_init fb hN _ hmk
  have hμ := measure_init fb hN _ hmk
  have hd := runFuel_done fb _ _ hμ
  have hI2 := reachable_inv fb _ _ hI (runFuel_reachable fb (2 * fb.upperLimit.toNat + 2) _)
  have hfin := (inv_messages fb _ hI2).2 hd
  refine ⟨_, ?_, hfin.1, hfin.2⟩
  unfold Run finalState startState
  rw [hmk]
  simp only [hd, if_true]

theorem mock_fizz (i : Int) : mockFizzBuzzer.Fizz i = true ↔ (3 : Int) ∣ i := by
  simp [mockFizzBuzzer, Int.dvd_iff_tmod_eq_zero]

theorem mock_buzz (i : Int) : mockFizzBuzzer.Buzz i = true ↔ (5 : Int) ∣ i := by
  simp [mockFizzBuzzer, Int.dvd_iff_tmod_eq_zero]

theorem classic_eq_expected (i : Int) :
    expectedMessage mockFizzBuzzer i = classicMessage i := by
  unfold expectedMessage classicMessage
  have h3 := mock_fizz i
  have h5 := mock_buzz i
  have h15 : (15 : Int) ∣ i ↔ ((3 : Int) ∣ i ∧ (5 : Int) ∣ i) := by omega
  by_cases d3 : (3 : Int) ∣ i <;> by_cases d5 : (5 : Int) ∣ i
  · have f := h3.2 d3; have b := h5.2 d5
    simp [f, b, h15, d3, d5]
  · have f := h3.2 d3
    have b : mockFizzBuzzer.Buzz i = false := by
      cases hb : mockFizzBuzzer.Buzz i with
      | false => rfl
      | true => exact absurd (h5.1 hb) d5
    simp [f, b, h15, d3, d5]
  · have b := h5.2 d5
    have f : mockFizzBuzzer.Fizz i = false := by
      cases hf : mockFizzBuzzer.Fizz i with
      | false => rfl
      | true => exact absurd (h3.1 hf) d3
    simp [f, b, h15, d3, d5]
  · have b : mockFizzBuzzer.Buzz i = false := by
      cases hb : mockFizzBuzzer.Buzz i with
      | false => rfl
      | true => exact absurd (h5.1 hb) d5
    have f : mockFizzBuzzer.Fizz i = false := by
      cases hf : mockFizzBuzzer.Fizz i with
      | false => rfl
      | true => exact absurd (h3.1 hf) d3
    simp [f, b, h15, d3, d5]

/-- C1: with the classifier `Fizz(n) = (n % 3 == 0)`, `Buzz(n) = (n % 5 == 0)` and any
`N >= 0`, `Run` returns having logged, for `i = 1..N` in order, "FizzBuzz" when 15 divides `i`,
"Fizz" when 3 but not 5 divides it, "Buzz" when 5 but not 3 divides it, and otherwise the decimal
text of `i`; for `N = 15` the messages are exactly 1,2,Fizz,4,Buzz,Fizz,7,8,Fizz,Buzz,11,Fizz,
13,14,FizzBuzz. -/
theorem Run_mock_classic (N : Int) (hN : 0 ≤ N) :
    (∃ out, Run (New N mockFizzBuzzer) = Outcome.returned out
      ∧ messages out = (upTo N.toNat).map classicMessage)
    ∧ (∃ out, Run (New 15 mockFizzBuzzer) = Outcome.returned out
      ∧ messages out = ["1", "2", "Fizz", "4", "Buzz", "Fizz", "7", "8", "Fizz", "Buzz", "11",
          "Fizz", "13", "14", "FizzBuzz"]) := by
  constructor
  · obtain ⟨out, h1, _, h3⟩ := Run_returns (New N mockFizzBuzzer) hN
    refine ⟨out, h1, ?_⟩
    rw [h3]
    apply List.map_congr_left
    intro i _
    exact classic_eq_expected i
  · exact ⟨_, rfl, by decide⟩

/-- Witness of C1 at `N = 4`: the messages are 1, 2, Fizz, 4. -/
theorem Run_mock_classic_witness :
    (0 : Int) ≤ 4 ∧ ∃ out, Run (New 4 mockFizzBuzzer) = Outcome.returned out
      ∧ messages out = ["1", "2", "Fizz", "4"] :=
  ⟨by decide, by
    obtain ⟨out, h1, h2⟩ := (Run_mock_classic 4 (by decide)).1
    exact ⟨out, h1, by rw [h2]; decide⟩⟩

/-- C2: for every classifier and every `N >= 0`, `Run` returns having emitted exactly `N`
lines, the i-th being the message of the integer `i` ("FizzBuzz" if `Fizz(i)` and `Buzz(i)`,
"Fizz" if only `Fizz(i)`, "Buzz" if only `Buzz(i)`, else the decimal text of `i`); under every
interleaving of producer and consumer the log is at each moment the lines of `1..k` for some
`k <= N`, and it is the lines of `1..N` once the consumer has returned; `N = 0` emits nothing. -/
theorem Run_emits_one_message_per_integer (fb : FizzBuzz) (hN : 0 ≤ fb.upperLimit) :
    (∃ out, Run fb = Outcome.returned out
      ∧ out.length = fb.upperLimit.toNat
      ∧ messages out = (upTo fb.upperLimit.toNat).map (expectedMessage fb.repo))
    ∧ (∀ ch s, make (Int.tdiv fb.upperLimit 2) = some ch → Reachable fb (initState ch) s →
        (∃ k, k ≤ fb.upperLimit.toNat ∧ s.out.length = k
          ∧ messages s.out = (upTo k).map (expectedMessage fb.repo))
        ∧ (s.consumerDone = true → s.out.length = fb.upperLimit.toNat
          ∧ messages s.out = (upTo fb.upperLimit.toNat).map (expectedMessage fb.repo)))
    ∧ (fb.upperLimit = 0 → Run fb = Outcome.returned []) := by
  refine ⟨Run_returns fb hN, ?_, ?_⟩
  · intro ch s hch hr
    exact inv_messages fb s (reachable_inv fb _ _ (inv_init fb hN ch hch) hr)
  · intro h0
    obtain ⟨out, h1, h2, _⟩ := Run_returns fb hN
    rw [h0] at h2
    have : out = [] := List.length_eq_zero.mp (by simpa using h2)
    rw [h1, this]

/-- Witness of C2 at `N = 5` with a classifier that is not the arithmetic one. -/
theorem Run_emits_one_message_per_integer_witness :
    (0 : Int) ≤ 5 ∧ ∃ out,
      Run (New 5 { Fizz := fun n => decide (n < 3), Buzz := fun n => decide (1 < n) })
        = Outcome.returned out
      ∧ out.length = 5 ∧ messages out = ["Fizz", "FizzBuzz", "Buzz", "Buzz", "Buzz"] :=
  ⟨by decide, by
    obtain ⟨out, h1, h2, h3⟩ :=
      (Run_emits_one_message_per_integer
        (New 5 { Fizz := fun n => decide (n < 3), Buzz := fun n => decide (1 < n) })
        (by decide)).1
    exact ⟨out, h1, h2, by rw [h3]; decide⟩⟩

end app



/-! ## Proofs: decimal text round trip -/

namespace strconv

theorem digitVal_digitChar (d : Nat) (hd : d < 10) : digitVal (digitChar d) = some d := by
  interval_cases d <;> rfl

theorem digitChar_ne_minus (d : Nat) (hd : d < 10) : digitChar d ≠ '-' := by
  interval_cases d <;> decide

theorem digitChar_ne_plus (d : Nat) (hd : d < 10) : digitChar d ≠ '+' := by
  interval_cases d <;> decide

theorem natDigits_append (fuel n : Nat) (acc : List Char) :
    natDigits fuel n acc = natDigits fuel n [] ++ acc := by
  induction fuel generalizing n acc with
  | zero => simp [natDigits]
  | succ f ih =>
    unfold natDigits
    split
    · simp
    · rw [ih (n / 10) (digitChar (n % 10) :: acc), ih (n / 10) [digitChar (n % 10)]]
      simp

theorem parseDigits_append (xs ys : List Char) (a : Nat) :
    parseDigits (xs ++ ys) a = (parseDigits xs a).bind (parseDigits ys) := by
  induction xs generalizing a with
  | nil => simp [parseDigits]
  | cons c cs ih =>
    simp only [List.cons_append, parseDigits]
    cases digitVal c with
    | none => simp
    | some d => simp [ih]

theorem parseDigits_natDigits (fuel n : Nat) (h : n < fuel) :
    parseDigits (natDigits fuel n []) 0 = some n := by
  induction fuel generalizing n with
  | zero => omega
  | succ f ih =>
    unfold natDigits
    split
    · rename_i h10
      simp [parseDigits, digitVal_digitChar n h10]
    · rename_i h10
      rw [natDigits_append, parseDigits_append, ih (n / 10) (by omega)]
      simp only [Option.bind, parseDigits, digitVal_digitChar (n % 10) (Nat.mod_lt _ (by norm_num))]
      congr 1
      omega

theorem natDigits_startsWithDigit (fuel n : Nat) (acc : List Char)
    (h : startsWithDigit acc) : startsWithDigit (natDigits fuel n acc) := by
  induction fuel generalizing n acc with
  | zero => simpa [natDigits] using h
  | succ f ih =>
    unfold natDigits
    split
    · rename_i h10
      exact ⟨n, acc, h10, rfl⟩
    · exact ih _ _ ⟨n % 10, acc, Nat.mod_lt _ (by norm_num), rfl⟩

theorem FormatNat_startsWithDigit (n : Nat) : startsWithDigit (FormatNat n) := by
  unfold FormatNat natDigits
  split
  · rename_i h10
    exact ⟨n, [], h10, rfl⟩
  · exact natDigits_startsWithDigit _ _ _ ⟨n % 10, [], Nat.mod_lt _ (by norm_num), rfl⟩

theorem ParseUint_FormatNat (n : Nat) : ParseUint (FormatNat n) = some n := by
  obtain ⟨d, rest, _, hl⟩ := FormatNat_startsWithDigit n
  have h := parseDigits_natDigits (n + 1) n (by omega)
  unfold ParseUint
  rw [hl]
  simp only
  rw [← hl]
  exact h

/-- Parsing the decimal text of a Go `int` gives the `int` back. -/
theorem Atoi_Itoa (n : Int) (hn : isInt n) : Atoi (Itoa n) = some n := by
  obtain ⟨hlo, hhi⟩ := hn
  cases n with
  | ofNat k =>
    obtain ⟨d, rest, hd, hl⟩ := FormatNat_startsWithDigit k
    have hp := ParseUint_FormatNat k
    have hm := digitChar_ne_minus d hd
    have hpl := digitChar_ne_plus d hd
    have hk : (k : Int) ≤ maxInt := hhi
    unfold Atoi Itoa
    simp only
    rw [hl] at hp ⊢
    split
    · rename_i heq; cases heq
    · rename_i heq
      injection heq with h1 _
      exact absurd h1 hm
    · rename_i heq
      injection heq with h1 _
      exact absurd h1 hpl
    · rw [hp]
      simp [hk]
  | negSucc k =>
    have hp := ParseUint_FormatNat (k + 1)
    have hk : ((k + 1 : Nat) : Int) ≤ 2 ^ 63 := by
      unfold minInt at hlo
      have : Int.negSucc k = -((k + 1 : Nat) : Int) := rfl
      rw [this] at hlo
      omega
    unfold Atoi Itoa
    simp only
    rw [hp]
    simp only [hk, if_true]
    rfl

end strconv

/-! ## Proofs: the simulated division service -/

namespace server

theorem tmod_natAbs (a b : Int) : (Int.tmod a b).natAbs = a.natAbs % b.natAbs := by
  cases a <;> cases b <;> simp [Int.tmod] <;> rfl

theorem tmod_nonpos (a b : Int) (ha : a ≤ 0) : Int.tmod a b ≤ 0 := by
  cases a with
  | ofNat m =>
    have : m = 0 := by
      have h : (m : Int) ≤ 0 := ha
      omega
    subst this
    simp
  | negSucc m =>
    cases b with
    | ofNat n => exact Int.neg_nonpos_of_nonneg (Int.ofNat_nonneg (Nat.succ m % n))
    | negSucc n => exact Int.neg_nonpos_of_nonneg (Int.ofNat_nonneg (Nat.succ m % Nat.succ n))

theorem deferred_result (res : String) :
    deferred { errorJSON := "", resultJSON := res, statusCode := http.StatusOK }
      = { ContentType := "application/json", Code := 200, Body := res } := rfl

theorem route_divide_ok (r : http.Request) (a b : Int) (hp : r.Path = "/divide")
    (ha : strconv.Atoi (r.Query.Get "a") = some a)
    (hb : strconv.Atoi (r.Query.Get "b") = some b) (hb0 : b ≠ 0) :
    route r = { errorJSON := "",
                resultJSON := "\x7b\"remainder\":" ++ strconv.Itoa (Int.tmod a b) ++ "\x7d",
                statusCode := http.StatusOK } := by
  simp [route, hp, getIntFromQuery, ha, hb, hb0, marshalDivisionResult]

theorem route_divide_zero (r : http.Request) (a : Int) (hp : r.Path = "/divide")
    (ha : strconv.Atoi (r.Query.Get "a") = some a)
    (hb : strconv.Atoi (r.Query.Get "b") = some 0) :
    route r = { errorJSON := newErrorJSON "Division by zero is not allowed", resultJSON := "",
                statusCode := http.StatusBadRequest } := by
  simp [route, hp, getIntFromQuery, ha, hb]

theorem route_bad_a (r : http.Request) (hp : r.Path = "/divide")
    (ha : strconv.Atoi (r.Query.Get "a") = none) :
    route r = { errorJSON := newErrorJSON "Invalid query parameter: 'a'", resultJSON := "",
                statusCode := http.StatusBadRequest } := by
  simp [route, hp, getIntFromQuery, ha]

theorem route_bad_b (r : http.Request) (a : Int) (hp : r.Path = "/divide")
    (ha : strconv.Atoi (r.Query.Get "a") = some a)
    (hb : strconv.Atoi (r.Query.Get "b") = none) :
    route r = { errorJSON := newErrorJSON "Invalid query parameter: 'b'", resultJSON := "",
                statusCode := http.StatusBadRequest } := by
  simp [route, hp, getIntFromQuery, ha, hb]

theorem route_unsupported (r : http.Request) (hp : r.Path ≠ "/divide") :
    route r = { errorJSON := newErrorJSON "Unsupported path", resultJSON := "",
                statusCode := http.StatusNotFound } := by
  simp [route, hp]

theorem handler_divide_ok (r : http.Request) (a b : Int) (hp : r.Path = "/divide")
    (ha : strconv.Atoi (r.Query.Get "a") = some a)
    (hb : strconv.Atoi (r.Query.Get "b") = some b) (hb0 : b ≠ 0) :
    handler r = { ContentType := "application/json", Code := 200,
                  Body := "\x7b\"remainder\":" ++ strconv.Itoa (Int.tmod a b) ++ "\x7d" } := by
  unfold handler
  rw [route_divide_ok r a b hp ha hb hb0]
  rfl

theorem handler_divide_zero (r : http.Request) (a : Int) (hp : r.Path = "/divide")
    (ha : strconv.Atoi (r.Query.Get "a") = some a)
    (hb : strconv.Atoi (r.Query.Get "b") = some 0) :
    handler r = { ContentType := "application/json", Code := 400,
                  Body := "\x7b\"message\":\"Division by zero is not allowed\"\x7d" } := by
  unfold handler
  rw [route_divide_zero r a hp ha hb]
  rfl

theorem handler_bad_a (r : http.Request) (hp : r.Path = "/divide")
    (ha : strconv.Atoi (r.Query.Get "a") = none) :
    handler r = { ContentType := "application/json", Code := 400,
                  Body := "\x7b\"message\":\"Invalid query parameter: 'a'\"\x7d" } := by
  unfold handler
  rw [route_bad_a r hp ha]
  rfl

theorem handler_bad_b (r : http.Request) (a : Int) (hp : r.Path = "/divide")
    (ha : strconv.Atoi (r.Query.Get "a") = some a)
    (hb : strconv.Atoi (r.Query.Get "b") = none) :
    handler r = { ContentType := "application/json", Code := 400,
                  Body := "\x7b\"message\":\"Invalid query parameter: 'b'\"\x7d" } := by
  unfold handler
  rw [route_bad_b r a hp ha hb]
  rfl

theorem handler_unsupported (r : http.Request) (hp : r.Path ≠ "/divide") :
    handler r = { ContentType := "application/json", Code := 404,
                  Body := "\x7b\"message\":\"Unsupported path\"\x7d" } := by
  unfold handler
  rw [route_unsupported r hp]
  rfl

/-- Every request to `/divide` is answered with 200 or 400. -/
theorem handler_divide_code (r : http.Request) (hp : r.Path = "/divide") :
    (handler r).Code = 200 ∨ (handler r).Code = 400 := by
  cases ha : strconv.Atoi (r.Query.Get "a") with
  | none => right; rw [handler_bad_a r hp ha]
  | some a =>
    cases hb : strconv.Atoi (r.Query.Get "b") with
    | none => right; rw [handler_bad_b r a hp ha hb]
    | some b =>
      by_cases hb0 : b = 0
      · subst hb0
        right; rw [handler_divide_zero r a hp ha hb]
      · left; rw [handler_divide_ok r a b hp ha hb hb0]

end server

/-! ## Proofs: the remote classifier -/

namespace httpapi

theorem divide_canned (api : API) (a b : Int) (resp : http.Response)
    (h : api.server.Get (requestPath a b) = Except.ok resp) (x y : Int) :
    api.divide a b = (canned resp).divide x y := by
  unfold API.divide
  rw [h]
  rfl

theorem commonDivide_fst (api : API) (i d : Int) :
    (api.commonDivide i d).1 = true ↔ ((api.divide i d).2 = none ∧ (api.divide i d).1 = 0) := by
  unfold API.commonDivide
  rcases api.divide i d with ⟨v, _ | e⟩ <;> simp

theorem commonDivide_error (api : API) (i d : Int) (e : String)
    (h : (api.divide i d).2 = some e) :
    api.commonDivide i d
      = (false, [slog.Error "Error calling divide API" [slog.StringAttr "error" e]]) := by
  unfold API.commonDivide
  rcases hd : api.divide i d with ⟨v, _ | e2⟩
  · rw [hd] at h; cases h
  · rw [hd] at h
    cases h
    rfl

theorem divide_too_large (api : API) (a b : Int) (resp : http.Response)
    (h : api.server.Get (requestPath a b) = Except.ok resp)
    (hl : maxResponseSize < resp.ContentLength) :
    api.divide a b
      = (0, some ("response too large: " ++ strconv.Itoa resp.ContentLength ++ " bytes")) := by
  unfold API.divide
  rw [h]
  simp [hl]

theorem divide_unknown_size (api : API) (a b : Int) (resp : http.Response)
    (h : api.server.Get (requestPath a b) = Except.ok resp) (hl : resp.ContentLength < 0) :
    api.divide a b = (0, some "response size unknown, will not process") := by
  have h2 : ¬ resp.ContentLength > maxResponseSize := by
    unfold maxResponseSize; omega
  unfold API.divide
  rw [h]
  simp [hl, h2]

theorem divide_sized (api : API) (a b : Int) (resp : http.Response)
    (h : api.server.Get (requestPath a b) = Except.ok resp)
    (hlo : 0 ≤ resp.ContentLength) (hhi : resp.ContentLength ≤ maxResponseSize) :
    api.divide a b =
      match resp.Body with
      | Except.error err =>
        (0, some ("failed to read response body on response status " ++ resp.Status ++ ": "
          ++ err))
      | Except.ok bodyBytes =>
        if resp.StatusCode = http.StatusOK then
          match server.unmarshalDivisionResult bodyBytes with
          | Except.error err => (0, some ("failed to decode result response: " ++ err.text))
          | Except.ok result => (result.Remainder, none)
        else
          match server.unmarshalErrorResult bodyBytes with
          | Except.error err =>
            (0, some ("failed to decode error response for status code "
              ++ strconv.Itoa resp.StatusCode ++ ": " ++ err.text))
          | Except.ok er => (0, some (statusErrorText resp er)) := by
  have h1 : ¬ resp.ContentLength > maxResponseSize := by omega
  have h2 : ¬ resp.ContentLength < 0 := by omega
  unfold API.divide
  rw [h]
  simp only [h1, h2, if_false]
  cases resp.Body with
  | error e => rfl
  | ok body =>
    simp only
    by_cases hs : resp.StatusCode = http.StatusOK
    · simp only [hs, if_true]
    · simp only [hs, if_false]
      cases server.unmarshalErrorResult body with
      | error e => rfl
      | ok er =>
        simp only [statusErrorText, http.StatusBadRequest, http.StatusInternalServerError]
        by_cases h400 : resp.StatusCode = 400
        · simp [h400]
        · by_cases h4 : resp.StatusCode ≥ 400 ∧ resp.StatusCode ≤ 499
          · simp [h400, h4]
          · by_cases h5 : resp.StatusCode = 500
            · simp [h5]
            · have h4' : ¬ (400 ≤ resp.StatusCode ∧ resp.StatusCode ≤ 499) := h4
              simp [h400, h4, h4', h5]

theorem divide_non200_errors (api : API) (a b : Int) (resp : http.Response)
    (h : api.server.Get (requestPath a b) = Except.ok resp)
    (hs : resp.StatusCode ≠ http.StatusOK) : ∃ e, (api.divide a b).2 = some e := by
  by_cases hl : maxResponseSize < resp.ContentLength
  · rw [divide_too_large api a b resp h hl]; exact ⟨_, rfl⟩
  · by_cases hn : resp.ContentLength < 0
    · rw [divide_unknown_size api a b resp h hn]; exact ⟨_, rfl⟩
    · rw [divide_sized api a b resp h (by omega) (by omega)]
      cases resp.Body with
      | error e => exact ⟨_, rfl⟩
      | ok body =>
        simp only [hs, if_false]
        cases server.unmarshalErrorResult body with
        | error e => exact ⟨_, rfl⟩
        | ok er => exact ⟨_, rfl⟩

theorem New_get (a b : Int) :
    New.server.Get (requestPath a b)
      = Except.ok (httptest.deliver (server.handler (requestPath a b))) := rfl

theorem deliver_remainder (r : Int) (hlo : -5 < r) (hhi : r < 5) (x y : Int) :
    (canned (httptest.deliver
        { ContentType := "application/json", Code := 200,
          Body := "\x7b\"remainder\":" ++ strconv.Itoa r ++ "\x7d" })).divide x y
      = (r, none) := by
  interval_cases r <;> rfl

theorem tmod_small (n d : Int) (hd : 0 < d) (hd5 : d ≤ 5) :
    -5 < Int.tmod n d ∧ Int.tmod n d < 5 := by
  have h := server.tmod_natAbs n d
  have hpos : 0 < d.natAbs := by omega
  have hlt : n.natAbs % d.natAbs < d.natAbs := Nat.mod_lt _ hpos
  omega

theorem tmod_beq_emod (n d : Int) : (Int.tmod n d == 0) = (n % d == 0) := by
  rw [Bool.eq_iff_iff]
  simp only [beq_iff_eq]
  rw [← Int.dvd_iff_tmod_eq_zero, Int.dvd_iff_emod_eq_zero]

theorem New_divide (n d : Int) (hn : strconv.isInt n) (hd : 0 < d) (hd5 : d ≤ 5) :
    New.divide n d = (Int.tmod n d, none) := by
  have hdI : strconv.isInt d := by
    unfold strconv.isInt strconv.minInt strconv.maxInt
    constructor <;> omega
  have ha : strconv.Atoi ((requestPath n d).Query.Get "a") = some n := strconv.Atoi_Itoa n hn
  have hb : strconv.Atoi ((requestPath n d).Query.Get "b") = some d := strconv.Atoi_Itoa d hdI
  have hh := server.handler_divide_ok (requestPath n d) n d rfl ha hb (by omega)
  have hg := New_get n d
  rw [hh] at hg
  rw [divide_canned New n d _ hg 0 0]
  obtain ⟨h1, h2⟩ := tmod_small n d hd hd5
  exact deliver_remainder _ h1 h2 0 0

end httpapi

/-! ## The remote classifier against the simulated service -/

namespace httpapi

/-- C3: the remote classifier backed by the simulated division service computes the local
predicates: for every Go `int` `n`, the request `/divide?a=n&b=3` (resp. `b=5`), answered by
the handler of `server.New` and decoded by `divide`, yields the remainder `n % 3` (resp.
`n % 5`) with no error, so `Fizz(n) = (n % 3 == 0)` and `Buzz(n) = (n % 5 == 0)`: the
predicates of the specification and the booleans of the local classifier `mockFizzBuzzer`. -/
theorem API_computes_local_predicates (n : Int) (hn : strconv.isInt n) :
    New.divide n 3 = (Int.tmod n 3, none)
    ∧ New.divide n 5 = (Int.tmod n 5, none)
    ∧ New.Fizz n = (Int.tmod n 3 == 0)
    ∧ New.Buzz n = (Int.tmod n 5 == 0)
    ∧ New.Fizz n = spec.isFizz n
    ∧ New.Buzz n = spec.isBuzz n
    ∧ New.Fizz n = app.mockFizzBuzzer.Fizz n
    ∧ New.Buzz n = app.mockFizzBuzzer.Buzz n := by
  have h3 := New_divide n 3 hn (by norm_num) (by norm_num)
  have h5 := New_divide n 5 hn (by norm_num) (by norm_num)
  have f : New.Fizz n = (Int.tmod n 3 == 0) := by
    unfold API.Fizz API.commonDivide
    rw [h3]
  have b : New.Buzz n = (Int.tmod n 5 == 0) := by
    unfold API.Buzz API.commonDivide
    rw [h5]
  refine ⟨h3, h5, f, b, ?_, ?_, f, b⟩
  · rw [f, tmod_beq_emod]; rfl
  · rw [b, tmod_beq_emod]; rfl

/-- Witness of C3 at `n = -9`: divisible by 3, not by 5. -/
theorem API_computes_local_predicates_witness :
    strconv.isInt (-9) ∧ New.Fizz (-9) = true ∧ New.Buzz (-9) = false :=
  ⟨by decide, by
    have h := API_computes_local_predicates (-9) (by decide)
    exact ⟨by rw [h.2.2.1]; decide, by rw [h.2.2.2.1]; decide⟩⟩

/-- C4: for every server behaviour, `Fizz` and `Buzz` return true exactly when `divide`
returns no error and the remainder 0; when `divide` returns an error they return false (and
log it), whatever the cause: a transport failure, an oversized or unknown-length response, a
status other than 200, an unreadable body, or a body that does not decode. -/
theorem classifier_masks_errors (api : API) (n : Int) :
    (api.Fizz n = true ↔ ((api.divide n 3).2 = none ∧ (api.divide n 3).1 = 0))
    ∧ (api.Buzz n = true ↔ ((api.divide n 5).2 = none ∧ (api.divide n 5).1 = 0))
    ∧ (∀ e, (api.divide n 3).2 = some e → api.Fizz n = false
        ∧ api.commonDivide n 3
          = (false, [slog.Error "Error calling divide API" [slog.StringAttr "error" e]]))
    ∧ (∀ e, (api.divide n 5).2 = some e → api.Buzz n = false
        ∧ api.commonDivide n 5
          = (false, [slog.Error "Error calling divide API" [slog.StringAttr "error" e]]))
    ∧ (∀ d e, api.server.Get (requestPath n d) = Except.error e →
        (api.commonDivide n d).1 = false)
    ∧ (∀ d resp, api.server.Get (requestPath n d) = Except.ok resp →
        (maxResponseSize < resp.ContentLength ∨ resp.ContentLength < 0
          ∨ resp.StatusCode ≠ http.StatusOK
          ∨ (∃ e, resp.Body = Except.error e)
          ∨ (∃ body e, resp.Body = Except.ok body
              ∧ server.unmarshalDivisionResult body = Except.error e)) →
        (api.commonDivide n d).1 = false) := by
  have key : ∀ d e, (api.divide n d).2 = some e → (api.commonDivide n d).1 = false := by
    intro d e h
    rw [commonDivide_error api n d e h]
  refine ⟨commonDivide_fst api n 3, commonDivide_fst api n 5, ?_, ?_, ?_, ?_⟩
  · intro e h
    exact ⟨key 3 e h, commonDivide_error api n 3 e h⟩
  · intro e h
    exact ⟨key 5 e h, commonDivide_error api n 5 e h⟩
  · intro d e h
    apply key d ("failed to call API: " ++ e)
    unfold API.divide
    rw [h]
  · intro d resp h hc
    by_cases hl : maxResponseSize < resp.ContentLength
    · exact key d _ (by rw [divide_too_large api n d resp h hl])
    · by_cases hneg : resp.ContentLength < 0
      · exact key d _ (by rw [divide_unknown_size api n d resp h hneg])
      · by_cases hs : resp.StatusCode = http.StatusOK
        · have hd := divide_sized api n d resp h (by omega) (by omega)
          rcases hc with h1 | h1 | h1 | ⟨e, h1⟩ | ⟨body, e, h1, h2⟩
          · exact absurd h1 hl
          · exact absurd h1 hneg
          · exact absurd hs h1
          · rw [h1] at hd
            exact key d _ (by rw [hd])
          · rw [h1] at hd
            simp only [hs, if_true, h2] at hd
            exact key d _ (by rw [hd])
        · obtain ⟨e, he⟩ := divide_non200_errors api n d resp h hs
          exact key d e he

/-- Witness of C4: the three servers of `TestAPI_FizzAndBuzz`: remainder 0, remainder 1, and
a 500 error. -/
theorem classifier_masks_errors_witness :
    (canned { Status := "200 OK", StatusCode := 200, ContentLength := 16,
              Body := Except.ok "\x7b\"remainder\":0\x7d\n" }).Fizz 0 = true
    ∧ ¬ ((canned { Status := "200 OK", StatusCode := 200, ContentLength := 16,
                   Body := Except.ok "\x7b\"remainder\":1\x7d\n" }).Buzz 0 = true)
    ∧ (canned { Status := "500 Internal Server Error", StatusCode := 500, ContentLength := 42,
                Body := Except.ok "\x7b\"message\":\"Error from server test case\"\x7d\n"
              }).commonDivide 0 3
        = (false, [slog.Error "Error calling divide API"
            [slog.StringAttr "error" "500 Internal Server Error: Error from server test case"]]) :=
  ⟨(classifier_masks_errors
      (canned { Status := "200 OK", StatusCode := 200, ContentLength := 16,
                Body := Except.ok "\x7b\"remainder\":0\x7d\n" }) 0).1.mpr ⟨rfl, rfl⟩,
   fun h => absurd ((classifier_masks_errors
      (canned { Status := "200 OK", StatusCode := 200, ContentLength := 16,
                Body := Except.ok "\x7b\"remainder\":1\x7d\n" }) 0).2.1.mp h).2 (by decide),
   ((classifier_masks_errors
      (canned { Status := "500 Internal Server Error", StatusCode := 500, ContentLength := 42,
                Body := Except.ok "\x7b\"message\":\"Error from server test case\"\x7d\n"
              }) 0).2.2.1 _ rfl).2⟩

/-- C5: a response whose declared length exceeds 1024 bytes is rejected with result 0 and the
error "response too large: <length> bytes", one whose length is unknown (negative) with
result 0 and an error, whatever its status code and body (the body is not looked at); a
declared length of 0..1024 is not rejected by this check: the outcome is that of the same
response with any other declared length in that range.  `Fizz` and `Buzz` return false for
a rejected response. -/
theorem divide_rejects_oversized (api : API) (a b : Int) (resp : http.Response)
    (h : api.server.Get (requestPath a b) = Except.ok resp) :
    (maxResponseSize < resp.ContentLength →
      api.divide a b
        = (0, some ("response too large: " ++ strconv.Itoa resp.ContentLength ++ " bytes"))
      ∧ (api.commonDivide a b).1 = false
      ∧ (b = 3 → api.Fizz a = false) ∧ (b = 5 → api.Buzz a = false))
    ∧ (resp.ContentLength < 0 →
      api.divide a b = (0, some "response size unknown, will not process")
      ∧ (api.commonDivide a b).1 = false
      ∧ (b = 3 → api.Fizz a = false) ∧ (b = 5 → api.Buzz a = false))
    ∧ (0 ≤ resp.ContentLength → resp.ContentLength ≤ 1024 →
      ∀ len : Int, 0 ≤ len → len ≤ 1024 →
        api.divide a b = (canned { resp with ContentLength := len }).divide a b)
    ∧ (canned { Status := "200 OK", StatusCode := 200, ContentLength := 1024,
                Body := Except.ok "\x7b\"remainder\":1\x7d" }).divide a b = (1, none)
    ∧ (canned { Status := "200 OK", StatusCode := 200, ContentLength := 1025,
                Body := Except.ok "\x7b\"remainder\":1\x7d" }).divide a b
        = (0, some "response too large: 1025 bytes") := by
  refine ⟨?_, ?_, ?_, rfl, rfl⟩
  · intro hl
    have hd := divide_too_large api a b resp h hl
    have hc : (api.commonDivide a b).1 = false := by
      rw [commonDivide_error api a b _ (by rw [hd])]
    refine ⟨hd, hc, ?_, ?_⟩
    · intro hb; subst hb; exact hc
    · intro hb; subst hb; exact hc
  · intro hl
    have hd := divide_unknown_size api a b resp h hl
    have hc : (api.commonDivide a b).1 = false := by
      rw [commonDivide_error api a b _ (by rw [hd])]
    refine ⟨hd, hc, ?_, ?_⟩
    · intro hb; subst hb; exact hc
    · intro hb; subst hb; exact hc
  · intro hlo hhi len hlen0 hlen1
    rw [divide_sized api a b resp h hlo hhi]
    rw [divide_sized (canned { resp with ContentLength := len }) a b
      { resp with ContentLength := len } rfl hlen0 hlen1]
    rfl

/-- Witness of C5: the oversized response of `TestDivide` (1041 declared bytes). -/
theorem divide_rejects_oversized_witness :
    (canned { Status := "200 OK", StatusCode := 200, ContentLength := 1041,
              Body := Except.ok "\x7b\"remainder\":1\x7d\n" }).server.Get (requestPath 0 3)
      = Except.ok { Status := "200 OK", StatusCode := 200, ContentLength := 1041,
                    Body := Except.ok "\x7b\"remainder\":1\x7d\n" }
    ∧ maxResponseSize < 1041
    ∧ (canned { Status := "200 OK", StatusCode := 200, ContentLength := 1041,
                Body := Except.ok "\x7b\"remainder\":1\x7d\n" }).divide 0 3
        = (0, some "response too large: 1041 bytes")
    ∧ (canned { Status := "200 OK", StatusCode := 200, ContentLength := 1041,
                Body := Except.ok "\x7b\"remainder\":1\x7d\n" }).Fizz 0 = false :=
  have h := (divide_rejects_oversized
      (canned { Status := "200 OK", StatusCode := 200, ContentLength := 1041,
                Body := Except.ok "\x7b\"remainder\":1\x7d\n" }) 0 3 _ rfl).1 (by decide)
  ⟨rfl, by decide, h.1, h.2.2.1 rfl⟩

/-- C6: for a response within the size limit, `divide` returns a remainder and no error
exactly when the status code is 200 and the body decodes as a division result, and it then
returns the decoded remainder; for any other status with a body that decodes as an error
record it returns 0 and the error "<status line>: <message>" when the status is 400, another
4xx, or 500, and "unexpected status code: <status line>: <message>" otherwise; a body that
does not decode yields a decode error, for 200 and for the other statuses. -/
theorem divide_status_classes (api : API) (a b : Int) (resp : http.Response)
    (h : api.server.Get (requestPath a b) = Except.ok resp)
    (hlo : 0 ≤ resp.ContentLength) (hhi : resp.ContentLength ≤ maxResponseSize) :
    ((api.divide a b).2 = none ↔
      (resp.StatusCode = 200 ∧ ∃ body r, resp.Body = Except.ok body
        ∧ server.unmarshalDivisionResult body = Except.ok r))
    ∧ (∀ body r, resp.StatusCode = 200 → resp.Body = Except.ok body →
        server.unmarshalDivisionResult body = Except.ok r →
        api.divide a b = (r.Remainder, none))
    ∧ (∀ body er, resp.StatusCode ≠ 200 → resp.Body = Except.ok body →
        server.unmarshalErrorResult body = Except.ok er →
        api.divide a b =
          (0, some (if resp.StatusCode = 400 ∨ (400 ≤ resp.StatusCode ∧ resp.StatusCode ≤ 499)
                        ∨ resp.StatusCode = 500
                    then resp.Status ++ ": " ++ er.Message
                    else "unexpected status code: " ++ resp.Status ++ ": " ++ er.Message)))
    ∧ (∀ body e, resp.StatusCode = 200 → resp.Body = Except.ok body →
        server.unmarshalDivisionResult body = Except.error e →
        api.divide a b = (0, some ("failed to decode result response: " ++ e.text)))
    ∧ (∀ body e, resp.StatusCode ≠ 200 → resp.Body = Except.ok body →
        server.unmarshalErrorResult body = Except.error e →
        api.divide a b = (0, some ("failed to decode error response for status code "
          ++ strconv.Itoa resp.StatusCode ++ ": " ++ e.text))) := by
  have hd := divide_sized api a b resp h hlo hhi
  simp only [http.StatusOK] at hd
  refine ⟨?_, ?_, ?_, ?_, ?_⟩
  · rw [hd]
    cases hb : resp.Body with
    | error e => simp
    | ok body =>
      by_cases hs : resp.StatusCode = 200
      · simp only [hs, if_true]
        cases hu : server.unmarshalDivisionResult body with
        | error e => simp [hu]
        | ok r => simp [hu]
      · simp only [hs, if_false]
        cases server.unmarshalErrorResult body with
        | error e => simp
        | ok er => simp
  · intro body r hs hb hu
    rw [hd, hb]
    simp only [hs, if_true, hu]
  · intro body er hs hb hu
    rw [hd, hb]
    simp only [hs, if_false, hu, statusErrorText]
  · intro body e hs hb hu
    rw [hd, hb]
    simp only [hs, if_true, hu]
  · intro body e hs hb hu
    rw [hd, hb]
    simp only [hs, if_false, hu]

/-- Witness of C6: a 303 response, as in `TestDivide`, is an unexpected status. -/
theorem divide_status_classes_witness :
    (canned { Status := "303 See Other", StatusCode := 303, ContentLength := 29,
              Body := Except.ok "\x7b\"message\":\"not the droids\"\x7d\n" }).server.Get
        (requestPath 0 0)
      = Except.ok { Status := "303 See Other", StatusCode := 303, ContentLength := 29,
                    Body := Except.ok "\x7b\"message\":\"not the droids\"\x7d\n" }
    ∧ (0 : Int) ≤ 29 ∧ (29 : Int) ≤ maxResponseSize
    ∧ (canned { Status := "303 See Other", StatusCode := 303, ContentLength := 29,
                Body := Except.ok "\x7b\"message\":\"not the droids\"\x7d\n" }).divide 0 0
        = (0, some "unexpected status code: 303 See Other: not the droids") := by
  have h := (divide_status_classes
    (canned { Status := "303 See Other", StatusCode := 303, ContentLength := 29,
              Body := Except.ok "\x7b\"message\":\"not the droids\"\x7d\n" }) 0 0 _ rfl
    (by decide) (by decide)).2.2.1 _ { Message := "not the droids" } (by decide) rfl rfl
  refine ⟨rfl, by decide, by decide, ?_⟩
  rw [h]
  rfl

end httpapi

/-! ## The contract of the simulated service -/

namespace server

/-- C7: a request to `/divide` whose parameters `a` and `b` parse as integers, `b` not 0, is
answered with status 200 and the body `{"remainder":r}`, where `r` is the truncated remainder
`a % b`: `a = (a / b) * b + r`, `|r| < |b|`, and `r` has the sign of `a`; `a = 10`, `b = 3`
gives `{"remainder":1}`. -/
theorem handler_valid_division (r : http.Request) (a b : Int) (hp : r.Path = "/divide")
    (ha : strconv.Atoi (r.Query.Get "a") = some a)
    (hb : strconv.Atoi (r.Query.Get "b") = some b) (hb0 : b ≠ 0) :
    handler r = { ContentType := "application/json", Code := 200,
                  Body := "\x7b\"remainder\":" ++ strconv.Itoa (Int.tmod a b) ++ "\x7d" }
    ∧ (httptest.deliver (handler r)).StatusCode = 200
    ∧ (httptest.deliver (handler r)).Status = "200 OK"
    ∧ a = Int.tdiv a b * b + Int.tmod a b
    ∧ |Int.tmod a b| < |b|
    ∧ (0 ≤ a → 0 ≤ Int.tmod a b)
    ∧ (a ≤ 0 → Int.tmod a b ≤ 0)
    ∧ handler { Path := "/divide", Query := [("a", ["10"]), ("b", ["3"])] }
        = { ContentType := "application/json", Code := 200,
            Body := "\x7b\"remainder\":1\x7d" } := by
  have hh := handler_divide_ok r a b hp ha hb hb0
  refine ⟨hh, ?_, ?_, ?_, ?_, ?_, ?_, ?_⟩
  · rw [hh]; rfl
  · rw [hh]; rfl
  · exact (Int.tdiv_add_tmod' a b).symm
  · rw [Int.abs_eq_natAbs, Int.abs_eq_natAbs, tmod_natAbs]
    have hpos : 0 < b.natAbs := Int.natAbs_pos.mpr hb0
    exact_mod_cast Nat.mod_lt _ hpos
  · intro h0
    exact Int.tmod_nonneg b h0
  · exact tmod_nonpos a b
  · decide

/-- Witness of C7: `a = -7`, `b = 2` gives the remainder `-1`. -/
theorem handler_valid_division_witness :
    strconv.Atoi "-7" = some (-7) ∧ strconv.Atoi "2" = some 2 ∧ (2 : Int) ≠ 0
    ∧ handler { Path := "/divide", Query := [("a", ["-7"]), ("b", ["2"])] }
      = { ContentType := "application/json", Code := 200,
          Body := "\x7b\"remainder\":-1\x7d" } := by
  have h := (handler_valid_division { Path := "/divide", Query := [("a", ["-7"]), ("b", ["2"])] }
    (-7) 2 rfl (by decide) (by decide) (by decide)).1
  refine ⟨by decide, by decide, by decide, ?_⟩
  rw [h]
  decide

/-- C9: a request to `/divide` whose parameter `a` is missing or does not parse is answered
with status 400 and the body `{"message":"Invalid query parameter: 'a'"}`, whatever `b` is; when
`a` parses and `b` is missing or does not parse, with status 400 and the body
`{"message":"Invalid query parameter: 'b'"}`; no result is produced in either case. -/
theorem handler_invalid_parameters (r : http.Request) (hp : r.Path = "/divide") :
    (strconv.Atoi (r.Query.Get "a") = none →
      handler r = { ContentType := "application/json", Code := 400,
                    Body := "\x7b\"message\":\"Invalid query parameter: 'a'\"\x7d" }
      ∧ (route r).resultJSON = "")
    ∧ (r.Query.Get "a" = "" →
      handler r = { ContentType := "application/json", Code := 400,
                    Body := "\x7b\"message\":\"Invalid query parameter: 'a'\"\x7d" })
    ∧ (r.Query.lookup "a" = none → r.Query.Get "a" = "")
    ∧ (∀ a, strconv.Atoi (r.Query.Get "a") = some a →
        strconv.Atoi (r.Query.Get "b") = none →
        handler r = { ContentType := "application/json", Code := 400,
                      Body := "\x7b\"message\":\"Invalid query parameter: 'b'\"\x7d" }
        ∧ (route r).resultJSON = "")
    ∧ (∀ a, strconv.Atoi (r.Query.Get "a") = some a → r.Query.Get "b" = "" →
        handler r = { ContentType := "application/json", Code := 400,
                      Body := "\x7b\"message\":\"Invalid query parameter: 'b'\"\x7d" })
    ∧ (r.Query.lookup "b" = none → r.Query.Get "b" = "") := by
  have hempty : strconv.Atoi "" = none := rfl
  have hget : ∀ k : String, r.Query.lookup k = none → r.Query.Get k = "" := by
    intro k hk
    unfold url.Values.Get
    rw [hk]
  refine ⟨?_, ?_, hget "a", ?_, ?_, hget "b"⟩
  · intro ha
    exact ⟨handler_bad_a r hp ha, by rw [route_bad_a r hp ha]⟩
  · intro ha
    exact handler_bad_a r hp (by rw [ha]; exact hempty)
  · intro a ha hb
    exact ⟨handler_bad_b r a hp ha hb, by rw [route_bad_b r a hp ha hb]⟩
  · intro a ha hb
    exact handler_bad_b r a hp ha (by rw [hb]; exact hempty)

/-- Witness of C9: `a` invalid and `b` zero reports `a`; `a` valid and `b` missing reports
`b`. -/
theorem handler_invalid_parameters_witness :
    handler { Path := "/divide", Query := [("a", ["invalid"]), ("b", ["0"])] }
      = { ContentType := "application/json", Code := 400,
          Body := "\x7b\"message\":\"Invalid query parameter: 'a'\"\x7d" }
    ∧ handler { Path := "/divide", Query := [("a", ["10"])] }
      = { ContentType := "application/json", Code := 400,
          Body := "\x7b\"message\":\"Invalid query parameter: 'b'\"\x7d" } :=
  ⟨((handler_invalid_parameters
      { Path := "/divide", Query := [("a", ["invalid"]), ("b", ["0"])] } rfl).1
      (by decide)).1,
   (handler_invalid_parameters { Path := "/divide", Query := [("a", ["10"])] } rfl).2.2.2.2.1
      10 (by decide) (by decide)⟩

/-- C10: a request whose path is not exactly `/divide` is answered with status 404 and the
body `{"message":"Unsupported path"}`, whatever its query; a request to `/divide` is never
answered with 404. -/
theorem handler_unsupported_path (r : http.Request) :
    (r.Path ≠ "/divide" →
      handler r = { ContentType := "application/json", Code := 404,
                    Body := "\x7b\"message\":\"Unsupported path\"\x7d" }
      ∧ (httptest.deliver (handler r)).StatusCode = 404
      ∧ (httptest.deliver (handler r)).Status = "404 Not Found")
    ∧ (r.Path = "/divide" → (handler r).Code ≠ 404
        ∧ (httptest.deliver (handler r)).StatusCode ≠ 404) := by
  constructor
  · intro hp
    have hh := handler_unsupported r hp
    refine ⟨hh, ?_, ?_⟩
    · rw [hh]; rfl
    · rw [hh]; rfl
  · intro hp
    have hc : (handler r).Code ≠ 404 := by
      rcases handler_divide_code r hp with h | h <;> rw [h] <;> decide
    exact ⟨hc, hc⟩

/-- Witness of C10: the path `/unsupported` of `TestServer`, and a path that only starts
with `/divide`. -/
theorem handler_unsupported_path_witness :
    handler { Path := "/unsupported", Query := [] }
      = { ContentType := "application/json", Code := 404,
          Body := "\x7b\"message\":\"Unsupported path\"\x7d" }
    ∧ (handler { Path := "/divide/", Query := [("a", ["10"]), ("b", ["3"])] }).Code = 404
    ∧ (handler { Path := "/divide", Query := [] }).Code ≠ 404 :=
  ⟨((handler_unsupported_path { Path := "/unsupported", Query := [] }).1 (by decide)).1,
   by rw [((handler_unsupported_path
      { Path := "/divide/", Query := [("a", ["10"]), ("b", ["3"])] }).1 (by decide)).1],
   ((handler_unsupported_path { Path := "/divide", Query := [] }).2 rfl).1⟩

end server

namespace httpapi

/-- C8: a request to `/divide` whose parameter `a` parses and whose parameter `b` parses to 0
is answered with status 400 and the body `{"message":"Division by zero is not allowed"}`;
`divide` turns that response into the error "400 Bad Request: Division by zero is not
allowed" with result 0, and the classifier masks it to false.  In particular this is what
the classifier's own request with divisor 0 meets. -/
theorem division_by_zero_masked (r : http.Request) (a : Int) (hp : r.Path = "/divide")
    (ha : strconv.Atoi (r.Query.Get "a") = some a)
    (hb : strconv.Atoi (r.Query.Get "b") = some 0) :
    server.handler r = { ContentType := "application/json", Code := 400,
                         Body := "\x7b\"message\":\"Division by zero is not allowed\"\x7d" }
    ∧ (httptest.deliver (server.handler r)).StatusCode = 400
    ∧ (∀ (api : API) (x y : Int),
        api.server.Get (requestPath x y) = Except.ok (httptest.deliver (server.handler r)) →
        api.divide x y = (0, some "400 Bad Request: Division by zero is not allowed")
        ∧ (api.commonDivide x y).1 = false)
    ∧ (∀ n : Int, strconv.isInt n →
        New.divide n 0 = (0, some "400 Bad Request: Division by zero is not allowed")
        ∧ (New.commonDivide n 0).1 = false) := by
  have hh := server.handler_divide_zero r a hp ha hb
  have hcanned : ∀ (api : API) (x y : Int) (w : httptest.ResponseRecorder),
      w = { ContentType := "application/json", Code := 400,
            Body := "\x7b\"message\":\"Division by zero is not allowed\"\x7d" } →
      api.server.Get (requestPath x y) = Except.ok (httptest.deliver w) →
      api.divide x y = (0, some "400 Bad Request: Division by zero is not allowed")
      ∧ (api.commonDivide x y).1 = false := by
    intro api x y w hw hg
    subst hw
    have hd : api.divide x y = (0, some "400 Bad Request: Division by zero is not allowed") := by
      rw [divide_canned api x y _ hg 0 0]
      rfl
    exact ⟨hd, by rw [commonDivide_error api x y _ (by rw [hd])]⟩
  refine ⟨hh, ?_, ?_, ?_⟩
  · rw [hh]; rfl
  · intro api x y hg
    exact hcanned api x y _ hh hg
  · intro n hn
    have hna : strconv.Atoi ((requestPath n 0).Query.Get "a") = some n := strconv.Atoi_Itoa n hn
    have hz := server.handler_divide_zero (requestPath n 0) n rfl hna rfl
    exact hcanned New n 0 _ hz (New_get n 0)

/-- Witness of C8: the request `a = 10`, `b = 0` of `TestServer`, and `divide(10, 0)`. -/
theorem division_by_zero_masked_witness :
    server.handler { Path := "/divide", Query := [("a", ["10"]), ("b", ["0"])] }
      = { ContentType := "application/json", Code := 400,
          Body := "\x7b\"message\":\"Division by zero is not allowed\"\x7d" }
    ∧ New.divide 10 0 = (0, some "400 Bad Request: Division by zero is not allowed")
    ∧ (New.commonDivide 10 0).1 = false :=
  have h := division_by_zero_masked
    { Path := "/divide", Query := [("a", ["10"]), ("b", ["0"])] } 10 rfl (by decide) (by decide)
  ⟨h.1, h.2.2.2 10 (by decide)⟩

end httpapi

/-! ## The pipeline: attributes of the log lines -/

namespace app

theorem upTo_lines (fb : FizzBuzz) (k : Nat) :
    (List.range' 1 k).map (fun (j : Nat) => logLine (mkResult fb (j : Int)))
      = (upTo k).map (lineOf fb) := by
  unfold upTo
  rw [List.map_map]
  rfl

theorem inv_lines (fb : FizzBuzz) (s : RunState) (hI : Inv fb s) :
    (∃ k, k ≤ fb.upperLimit.toNat ∧ s.out = (upTo k).map (lineOf fb))
    ∧ (s.consumerDone = true → s.out = (upTo fb.upperLimit.toNat).map (lineOf fb)) := by
  obtain ⟨k, m, hout, hbuf, hi, hle, hcap, hm, hcl, hdone⟩ := hI
  have hl : s.out = (upTo k).map (lineOf fb) := by rw [hout]; exact upTo_lines fb k
  constructor
  · refine ⟨k, ?_, hl⟩
    push_cast at hle
    omega
  · intro hd
    obtain ⟨hc, hm0⟩ := hdone hd
    have hk := hcl hc
    subst hm0
    have e : fb.upperLimit.toNat = k := by
      simp only [Nat.add_zero] at hk
      omega
    rw [e]
    exact hl

theorem Run_returns_lines (fb : FizzBuzz) (hN : 0 ≤ fb.upperLimit) :
    Run fb = Outcome.returned ((upTo fb.upperLimit.toNat).map (lineOf fb)) := by
  have hmk := make_of_nonneg fb.upperLimit hN
  have hI := inv_init fb hN _ hmk
  have hμ := measure_init fb hN _ hmk
  have hd := runFuel_done fb _ _ hμ
  have hI2 := reachable_inv fb _ _ hI (runFuel_reachable fb (2 * fb.upperLimit.toNat + 2) _)
  have hfin := (inv_lines fb _ hI2).2 hd
  unfold Run finalState startState
  rw [hmk]
  simp only [hd, if_true, hfin]

theorem mem_upTo (k : Nat) (i : Int) (h : i ∈ upTo k) : 1 ≤ i ∧ i ≤ (k : Int) := by
  unfold upTo at h
  rw [List.mem_map] at h
  obtain ⟨j, hj, rfl⟩ := h
  rw [List.mem_range'_1] at hj
  omega

theorem lineOf_word (fb : FizzBuzz) (i : Int)
    (h : fb.repo.Fizz i = true ∨ fb.repo.Buzz i = true) :
    (lineOf fb i).Attrs = [slog.IntAttr "number" i] := by
  unfold lineOf logLine mkResult
  cases hf : fb.repo.Fizz i <;> cases hb : fb.repo.Buzz i <;> simp [slog.Info, hf, hb] at h ⊢

theorem lineOf_plain (fb : FizzBuzz) (i : Int)
    (hf : fb.repo.Fizz i = false) (hb : fb.repo.Buzz i = false) :
    lineOf fb i = slog.Info (strconv.Itoa i) [] := by
  unfold lineOf logLine mkResult
  simp [hf, hb]

end app

namespace app

/-- C11, as the code has it: for every classifier and `N >= 0`, `Run` logs for each integer
`i` of `1..N` the line `lineOf i`, under the fixed scheduler and in every interleaving.  When
`Fizz(i)` or `Buzz(i)` holds (message "Fizz", "Buzz" or "FizzBuzz") the line carries exactly
the attribute `number = i`; when neither holds the line has the decimal text of `i` as its
message and carries no attribute, and `i` is read back from that message. -/
theorem Run_number_attribute (fb : FizzBuzz) (hN : 0 ≤ fb.upperLimit) :
    Run fb = Outcome.returned ((upTo fb.upperLimit.toNat).map (lineOf fb))
    ∧ (∀ ch s, make (Int.tdiv fb.upperLimit 2) = some ch → Reachable fb (initState ch) s →
        ∀ r ∈ s.out, ∃ i, 1 ≤ i ∧ i ≤ fb.upperLimit ∧ r = lineOf fb i)
    ∧ (∀ i, fb.repo.Fizz i = true ∨ fb.repo.Buzz i = true →
        (lineOf fb i).Attrs = [slog.IntAttr "number" i] ∧ carriesNumber i (lineOf fb i))
    ∧ (∀ i, fb.repo.Fizz i = false → fb.repo.Buzz i = false →
        (lineOf fb i).Message = strconv.Itoa i ∧ (lineOf fb i).Attrs = []
        ∧ ¬ carriesNumber i (lineOf fb i))
    ∧ (∀ i, strconv.isInt i → fb.repo.Fizz i = false → fb.repo.Buzz i = false →
        strconv.Atoi (lineOf fb i).Message = some i) := by
  refine ⟨Run_returns_lines fb hN, ?_, ?_, ?_, ?_⟩
  · intro ch s hch hr r hmem
    obtain ⟨k, hk, hout⟩ := (inv_lines fb s (reachable_inv fb _ _ (inv_init fb hN ch hch) hr)).1
    rw [hout, List.mem_map] at hmem
    obtain ⟨i, hi, rfl⟩ := hmem
    obtain ⟨h1, h2⟩ := mem_upTo k i hi
    exact ⟨i, h1, by omega, rfl⟩
  · intro i h
    have ha := lineOf_word fb i h
    refine ⟨ha, ?_⟩
    unfold carriesNumber
    rw [ha]
    exact List.mem_singleton.mpr rfl
  · intro i hf hb
    have hl := lineOf_plain fb i hf hb
    refine ⟨by rw [hl]; rfl, by rw [hl]; rfl, ?_⟩
    unfold carriesNumber
    rw [hl]
    exact List.not_mem_nil _
  · intro i hi hf hb
    rw [lineOf_plain fb i hf hb]
    exact strconv.Atoi_Itoa i hi

/-- Witness of C11 at `N = 3`: the lines of 1 and 2 carry no attribute, the line of 3 carries
`number = 3`. -/
theorem Run_number_attribute_witness :
    (0 : Int) ≤ 3
    ∧ Run (New 3 mockFizzBuzzer)
        = Outcome.returned [slog.Info "1" [], slog.Info "2" [],
            slog.Info "Fizz" [slog.IntAttr "number" 3]] :=
  ⟨by decide, by
    rw [(Run_number_attribute (New 3 mockFizzBuzzer) (by decide)).1]
    decide⟩

/-- C11 as stated fails: with `N = 1` and the classifier of `app_test.go`, `Run` logs for the
integer 1 the line with message "1" and no attribute, so not every line carries
`number = i`. -/
theorem Run_number_attribute_counterexample :
    Run (New 1 mockFizzBuzzer) = Outcome.returned [slog.Info "1" []]
    ∧ ¬ carriesNumber 1 (slog.Info "1" [])
    ∧ ¬ (∀ (fb : FizzBuzz), 0 ≤ fb.upperLimit → ∀ out, Run fb = Outcome.returned out →
          ∀ (j : Nat) (r : slog.Record), out.get? j = some r →
            carriesNumber ((j : Int) + 1) r) := by
  refine ⟨by decide, by decide, ?_⟩
  intro h
  have h1 := h (New 1 mockFizzBuzzer) (by decide) [slog.Info "1" []] (by decide) 0
    (slog.Info "1" []) rfl
  exact absurd h1 (by decide)

end app

/-! ## The pipeline: capacity and freedom from deadlock -/

namespace app

theorem cap_floor (N : Int) (hN : 0 ≤ N) : (((Int.tdiv N 2).toNat : Nat) : Int) = N / 2 := by
  rw [Int.tdiv_eq_ediv hN (by norm_num)]
  omega

theorem inv_bounds (fb : FizzBuzz) (hN : 0 ≤ fb.upperLimit) (s : RunState) (hI : Inv fb s) :
    (s.ch.cap : Int) = fb.upperLimit / 2
    ∧ (s.ch.buf.length : Int) ≤ fb.upperLimit / 2
    ∧ (s.consumerDone = true → Finished s) := by
  obtain ⟨k, m, hout, hbuf, hi, hle, hcap, hm, hcl, hdone⟩ := hI
  have hc : (s.ch.cap : Int) = fb.upperLimit / 2 := by
    rw [hcap]; exact cap_floor _ hN
  have hlen : s.ch.buf.length = m := by simp [hbuf]
  refine ⟨hc, ?_, ?_⟩
  · rw [hlen, ← hc]
    exact_mod_cast hm
  · intro hd
    obtain ⟨h1, h2⟩ := hdone hd
    refine ⟨h1, ?_, hd⟩
    rw [hbuf, h2]
    rfl

theorem progress (fb : FizzBuzz) (s : RunState) (hf : s.consumerDone = true → Finished s) :
    Finished s ∨ ∃ t, Step fb s t := by
  cases hd : s.consumerDone with
  | true => exact Or.inl (hf hd)
  | false =>
    obtain ⟨t, ht⟩ := schedule_progress fb s hd
    exact Or.inr ⟨t, schedule_step fb s t ht⟩

theorem finished_no_step (fb : FizzBuzz) (s : RunState) (hf : Finished s) (t : RunState) :
    ¬ Step fb s t := by
  obtain ⟨hc, _, hd⟩ := hf
  unfold Step consumerSteps producerSteps
  simp [hc, hd]

theorem startState_of_nonneg (fb : FizzBuzz) (hN : 0 ≤ fb.upperLimit) :
    startState fb
      = some (initState { cap := (Int.tdiv fb.upperLimit 2).toNat, buf := [], closed := false }) := by
  unfold startState
  rw [make_of_nonneg fb.upperLimit hN]

/-- C12: for every `N >= 0`, `Run` starts from a channel of capacity `floor(N/2)`, which is
not negative, with nothing sent, and never deadlocks: in every state reachable from that start
by an interleaving of producer and consumer the channel holds at most `floor(N/2)` results, and
either the producer has closed the channel and the consumer has drained it and returned, or
one of the two can take a step; every step lowers the measure, so every interleaving ends, and
it can only end finished, with the lines of `1..N` logged.  The scheduled `Run` ends in such a
finished state, reachable from its start, and returns what that state has logged.  For `N = 1`
the capacity is 0, the only first step is the send received at once, and `Run` returns with
the line of 1; for `N = 0` it returns with no output. -/
theorem Run_never_deadlocks (fb : FizzBuzz) (hN : 0 ≤ fb.upperLimit) :
    (∃ s0 sf : RunState,
        startState fb = some s0
        ∧ (s0.ch.cap : Int) = fb.upperLimit / 2 ∧ 0 ≤ fb.upperLimit / 2
        ∧ s0.ch.buf = [] ∧ s0.ch.closed = false ∧ s0.i = 1 ∧ s0.consumerDone = false
        ∧ s0.out = []
        ∧ (∀ s, Reachable fb s0 s →
            (s.ch.cap : Int) = fb.upperLimit / 2
            ∧ (s.ch.buf.length : Int) ≤ fb.upperLimit / 2
            ∧ (Finished s ∨ ∃ t, Step fb s t)
            ∧ (Finished s → (∀ t, ¬ Step fb s t)
                ∧ s.out = (upTo fb.upperLimit.toNat).map (lineOf fb))
            ∧ (∀ t, Step fb s t → measure fb t < measure fb s))
        ∧ finalState fb = some sf
        ∧ Reachable fb s0 sf
        ∧ Finished sf
        ∧ Run fb = Outcome.returned sf.out)
    ∧ (∀ repo : repository.FizzBuzzer,
        startState (New 1 repo)
          = some (initState { cap := 0, buf := [], closed := false })
        ∧ consumerSteps (initState { cap := 0, buf := [], closed := false })
            ++ producerSteps (New 1 repo) (initState { cap := 0, buf := [], closed := false })
          = [{ ch := { cap := 0, buf := [], closed := false }, i := 2, consumerDone := false,
               out := [lineOf (New 1 repo) 1] }]
        ∧ finalState (New 1 repo)
          = some { ch := { cap := 0, buf := [], closed := true }, i := 2, consumerDone := true,
                   out := [lineOf (New 1 repo) 1] }
        ∧ Run (New 1 repo) = Outcome.returned [lineOf (New 1 repo) 1])
    ∧ (∀ repo : repository.FizzBuzzer,
        startState (New 0 repo)
          = some (initState { cap := 0, buf := [], closed := false })
        ∧ finalState (New 0 repo)
          = some { ch := { cap := 0, buf := [], closed := true }, i := 1, consumerDone := true,
                   out := [] }
        ∧ Run (New 0 repo) = Outcome.returned []) := by
  refine ⟨?_, ?_, ?_⟩
  · have hmk := make_of_nonneg fb.upperLimit hN
    have hst := startState_of_nonneg fb hN
    have hI0 := inv_init fb hN _ hmk
    have hμ := measure_init fb hN _ hmk
    have hd := runFuel_done fb _ _ hμ
    have hr := runFuel_reachable fb (2 * fb.upperLimit.toNat + 2)
      (initState { cap := (Int.tdiv fb.upperLimit 2).toNat, buf := [], closed := false })
    have hI2 := reachable_inv fb _ _ hI0 hr
    have hfs : finalState fb = some (runFuel fb (2 * fb.upperLimit.toNat + 2)
        (initState { cap := (Int.tdiv fb.upperLimit 2).toNat, buf := [], closed := false })) := by
      unfold finalState
      rw [hst]
    refine ⟨_, _, hst, cap_floor _ hN, by omega, rfl, rfl, rfl, rfl, rfl, ?_, hfs, hr,
      (inv_bounds fb hN _ hI2).2.2 hd, ?_⟩
    · intro s hs
      have hI := reachable_inv fb _ _ hI0 hs
      obtain ⟨h1, h2, h3⟩ := inv_bounds fb hN s hI
      refine ⟨h1, h2, progress fb s h3, ?_, fun t ht => measure_step fb s t ht⟩
      intro hf
      exact ⟨finished_no_step fb s hf, (inv_lines fb s hI).2 hf.2.2⟩
    · unfold Run
      rw [hfs]
      simp only [hd, if_true]
  · intro repo
    exact ⟨rfl, rfl, rfl, rfl⟩
  · intro repo
    exact ⟨rfl, rfl, rfl⟩

/-- Witness of C12 at `N = 5`: the capacity is 2, and `Run` ends finished. -/
theorem Run_never_deadlocks_witness :
    (0 : Int) ≤ 5
    ∧ ∃ s0 sf : RunState, startState (New 5 mockFizzBuzzer) = some s0
        ∧ (s0.ch.cap : Int) = 2
        ∧ finalState (New 5 mockFizzBuzzer) = some sf
        ∧ Reachable (New 5 mockFizzBuzzer) s0 sf
        ∧ Finished sf
        ∧ Run (New 5 mockFizzBuzzer) = Outcome.returned sf.out :=
  ⟨by decide, by
    obtain ⟨s0, sf, h1, h2, _, _, _, _, _, _, _, h3, h4, h5, h6⟩ :=
      (Run_never_deadlocks (New 5 mockFizzBuzzer) (by decide)).1
    exact ⟨s0, sf, h1, by rw [h2]; decide, h3, h4, h5, h6⟩⟩

end app

/-! ## The interface's documentation against its implementations -/

namespace httpapi

theorem New_Fizz_tmod (n : Int) (hn : strconv.isInt n) : New.Fizz n = (Int.tmod n 3 == 0) := by
  unfold API.Fizz API.commonDivide
  rw [New_divide n 3 hn (by norm_num) (by norm_num)]

theorem New_Buzz_tmod (n : Int) (hn : strconv.isInt n) : New.Buzz n = (Int.tmod n 5 == 0) := by
  unfold API.Buzz API.commonDivide
  rw [New_divide n 5 hn (by norm_num) (by norm_num)]

/-- C13, as the code has it: for both implementations of `FizzBuzzer` in the repository (the
remote `API` backed by the simulated service, and the test's `mockFizzBuzzer`) and every Go
`int` `n`, `Fizz(n)` returns true if `n` is divisible by 3, and `Buzz(n)` returns true if `n`
is divisible by 5; indeed each returns true exactly then. -/
theorem Fizz_true_on_multiples_of_three (n : Int) (hn : strconv.isInt n) :
    ((3 : Int) ∣ n → New.Fizz n = true ∧ app.mockFizzBuzzer.Fizz n = true)
    ∧ ((5 : Int) ∣ n → New.Buzz n = true ∧ app.mockFizzBuzzer.Buzz n = true)
    ∧ (New.Fizz n = true ↔ (3 : Int) ∣ n)
    ∧ (app.mockFizzBuzzer.Fizz n = true ↔ (3 : Int) ∣ n)
    ∧ (New.Buzz n = true ↔ (5 : Int) ∣ n)
    ∧ (app.mockFizzBuzzer.Buzz n = true ↔ (5 : Int) ∣ n) := by
  have f : New.Fizz n = true ↔ (3 : Int) ∣ n := by
    rw [New_Fizz_tmod n hn, beq_iff_eq, Int.dvd_iff_tmod_eq_zero]
  have b : New.Buzz n = true ↔ (5 : Int) ∣ n := by
    rw [New_Buzz_tmod n hn, beq_iff_eq, Int.dvd_iff_tmod_eq_zero]
  exact ⟨fun h => ⟨f.mpr h, (app.mock_fizz n).mpr h⟩, fun h => ⟨b.mpr h, (app.mock_buzz n).mpr h⟩,
    f, app.mock_fizz n, b, app.mock_buzz n⟩

/-- Witness of C13 at `n = 15`. -/
theorem Fizz_true_on_multiples_of_three_witness :
    strconv.isInt 15 ∧ (3 : Int) ∣ 15 ∧ (5 : Int) ∣ 15
    ∧ New.Fizz 15 = true ∧ app.mockFizzBuzzer.Fizz 15 = true
    ∧ New.Buzz 15 = true ∧ app.mockFizzBuzzer.Buzz 15 = true :=
  have h := Fizz_true_on_multiples_of_three 15 (by decide)
  ⟨by decide, by decide, by decide, (h.1 (by decide)).1, (h.1 (by decide)).2,
    (h.2.1 (by decide)).1, (h.2.1 (by decide)).2⟩

/-- C13 as stated fails: 3 is divisible by 3, and `Fizz(3)` returns true, not false, for the
remote `API` and for `mockFizzBuzzer`. -/
theorem Fizz_false_on_multiples_counterexample :
    (3 : Int) ∣ 3 ∧ strconv.isInt 3
    ∧ New.Fizz 3 = true ∧ app.mockFizzBuzzer.Fizz 3 = true
    ∧ ¬ (New.Fizz 3 = false) ∧ ¬ (app.mockFizzBuzzer.Fizz 3 = false) := by
  decide

end httpapi
